import Mathlib

/-!
# Verification of the NaCCA SMS grading and ranking engine

This file gives a shallow embedding, in Lean 4, of the
assessment/grading core of the NaCCA school-management system
(`routes/assessments.py`, `config.py`, `models/__init__.py`) and proves
or refutes the frozen specification claims about it.

Modelling conventions:
* Python floats are modelled as `ℚ` (all operations involved are exact
  additions, comparisons and divisions of small decimal values).
* SQL `NULL` columns are modelled as `Option` fields.
* The database tables are modelled as Lean lists; the SQLAlchemy ORM
  mutates queried rows in place, which is modelled by mapping /
  replacing elements of those lists, preserving list order.
* `ORDER BY col DESC` on PostgreSQL (the configured backend) places
  NULLs first; the sort key order `rOrd` below reflects that by mapping
  `none` to `⊤` in `WithTop ℚ`.
* SQL query tie order is unspecified; we use insertion sort, and the
  theorems proved about positions depend only on the score multiset.
-/

/-- Replace the first element of a list satisfying `p` by its image
under `f`.  Models an in-place ORM update of the first row returned by
a `filter_by(...).first()` query. -/
def updateFirst {α : Type} (p : α → Bool) (f : α → α) : List α → List α
  | [] => []
  | a :: rest => if p a then f a :: rest else a :: updateFirst p f rest

/-! ## Rank engine

Embeds the position-assignment loop shared by
`calculate_class_positions` (`routes/assessments.py` lines 175-189) and
`calculate_terminal_positions` (lines 475-491):

```
position = 1
prev_score = None
for i, row in enumerate(rows_sorted_desc):
    if prev_score is not None and row.score != prev_score:
        position = i + 1
    row.position = position
    prev_score = row.score
```

Note that `prev_score` conflates the initial `None` sentinel with a
genuinely `NULL` score of the previous row, exactly as in Python. -/

/-- Sort key for `ORDER BY score DESC` under PostgreSQL: `NULL` sorts
before every number (NULLS FIRST for descending order). -/
def okey (s : Option ℚ) : WithTop ℚ :=
  match s with
  | none => ⊤
  | some x => (x : WithTop ℚ)

/-- `p` may precede `q` in the descending-order query result. -/
def rOrd (p q : Nat × Option ℚ) : Prop := okey q.2 ≤ okey p.2

instance : DecidableRel rOrd := fun p q =>
  inferInstanceAs (Decidable (okey q.2 ≤ okey p.2))

instance : IsTotal (Nat × Option ℚ) rOrd :=
  ⟨fun p q => by unfold rOrd; exact (le_total (okey q.2) (okey p.2))⟩

instance : IsTrans (Nat × Option ℚ) rOrd :=
  ⟨fun _ _ _ hab hbc => le_trans hbc hab⟩

/-- The position-assignment loop.  `i` is the 0-based loop index, `pos`
the current `position` variable, `prev` the `prev_score` variable
(`none` is both the initial sentinel and a NULL previous score). -/
def rankPass (i pos : Nat) (prev : Option ℚ) : List (Nat × Option ℚ) → List (Nat × Nat)
  | [] => []
  | (j, s) :: rest =>
    let pos' := if prev ≠ none ∧ s ≠ prev then i + 1 else pos
    (j, pos') :: rankPass (i + 1) pos' s rest

/-- Sort the `(row id, score)` pairs descending (NULLS FIRST) and run
the position loop, returning `(row id, assigned position)` pairs. -/
def rankByKeyDesc (xs : List (Nat × Option ℚ)) : List (Nat × Nat) :=
  rankPass 0 1 none (List.insertionSort rOrd xs)

/-- Number of entries whose score is strictly greater than `s` in the
NULLS-FIRST descending order. -/
def countGt (xs : List (Nat × Option ℚ)) (s : Option ℚ) : Nat :=
  xs.countP (fun p => decide (okey s < okey p.2))

/-- Competition rank of a score within a cohort of scores: one plus the
number of strictly greater scores.  (Specification-side definition of
"competition ranking", used to state the rank-correctness claims.) -/
def competitionRank (scores : List ℚ) (s : ℚ) : Nat :=
  1 + scores.countP (fun t => decide (s < t))

/-! ## Grading scale (`config.py`, `NACCA_GRADING_SCALE`) -/

/-- One `(min, max) : (grade, remark)` entry of the grading scale. -/
structure GradeBand where
  lo : ℚ
  hi : ℚ
  code : String
  remark : String
deriving DecidableEq

/-- `NACCA_GRADING_SCALE['PRIMARY']`, in dict insertion order. -/
def PRIMARY_SCALE : List GradeBand :=
  [⟨80, 100, "1", "Highest"⟩,
   ⟨70, 79, "2", "Higher"⟩,
   ⟨60, 69, "3", "High"⟩,
   ⟨50, 59, "4", "High Average"⟩,
   ⟨40, 49, "5", "Average"⟩,
   ⟨30, 39, "6", "Low Average"⟩,
   ⟨25, 29, "7", "Below Average"⟩,
   ⟨20, 24, "8", "Low"⟩,
   ⟨0, 19, "9", "Very Low"⟩]

/-- `NACCA_GRADING_SCALE['JHS']`, in dict insertion order. -/
def JHS_SCALE : List GradeBand :=
  [⟨80, 100, "1", "Excellent"⟩,
   ⟨70, 79, "2", "Very Good"⟩,
   ⟨60, 69, "3", "Good"⟩,
   ⟨55, 59, "4", "Credit"⟩,
   ⟨50, 54, "5", "Credit"⟩,
   ⟨45, 49, "6", "Credit"⟩,
   ⟨40, 44, "7", "Pass"⟩,
   ⟨35, 39, "8", "Pass"⟩,
   ⟨0, 34, "9", "Fail"⟩]

/-- `NACCA_GRADING_SCALE['SHS']`, in dict insertion order. -/
def SHS_SCALE : List GradeBand :=
  [⟨80, 100, "A1", "Excellent"⟩,
   ⟨70, 79, "B2", "Very Good"⟩,
   ⟨60, 69, "B3", "Good"⟩,
   ⟨55, 59, "C4", "Credit"⟩,
   ⟨50, 54, "C5", "Credit"⟩,
   ⟨45, 49, "C6", "Credit"⟩,
   ⟨40, 44, "D7", "Pass"⟩,
   ⟨35, 39, "E8", "Pass"⟩,
   ⟨0, 34, "F9", "Fail"⟩]

/-- `config.get('NACCA_GRADING_SCALE', dict()).get(level, dict())`: an
unknown level yields the empty scale. -/
def NACCA_GRADING_SCALE (level : String) : List GradeBand :=
  if level = "PRIMARY" then PRIMARY_SCALE
  else if level = "JHS" then JHS_SCALE
  else if level = "SHS" then SHS_SCALE
  else []

/-- The first-match interval lookup loop
`for (min, max), (grade, remark) in scale.items(): if min <= t <= max: ...`. -/
def gradeLookup (scale : List GradeBand) (t : ℚ) : Option (String × String) :=
  (scale.find? (fun b => decide (b.lo ≤ t) && decide (t ≤ b.hi))).map
    (fun b => (b.code, b.remark))

/-! ## Assessments (`models/__init__.py` `Assessment`, and
`routes/assessments.py` `save_scores` / grading helpers) -/

/-- The `assessments` table row (the columns the engine touches). -/
structure Assessment where
  id : Nat
  student_id : Nat
  class_subject_id : Nat
  term_id : Nat
  classwork_score : Option ℚ := some 0
  homework_score : Option ℚ := some 0
  project_score : Option ℚ := some 0
  exam_score : Option ℚ := some 0
  total_score : Option ℚ := none
  grade : Option String := none
  grade_remark : Option String := none
  class_position : Option Nat := none
  recorded_by_id : Option Nat := none
deriving DecidableEq

/-- `Assessment.calculate_total`: `total_score = (classwork or 0) +
(homework or 0) + (project or 0) + (exam or 0)`. -/
def Assessment.calculate_total (a : Assessment) : Assessment :=
  let t : ℚ := a.classwork_score.getD 0 + a.homework_score.getD 0 +
    a.project_score.getD 0 + a.exam_score.getD 0
  { a with total_score := some t }

/-- `calculate_grade_for_assessment` (`routes/assessments.py` lines
158-172): ensure the total exists, look up the first matching band,
set `grade` / `grade_remark` (or `None` / `None` on no match). -/
def calculate_grade_for_assessment (a : Assessment) (level : String) : Assessment :=
  let a1 := if a.total_score = none then a.calculate_total else a
  match gradeLookup (NACCA_GRADING_SCALE level) (a1.total_score.getD 0) with
  | some gr => { a1 with grade := some gr.1, grade_remark := some gr.2 }
  | none => { a1 with grade := none, grade_remark := none }

/-- One element of the JSON `scores` array posted to `/assessments/save`;
`none` models a missing or null component. -/
structure ScoreEntry where
  student_id : Nat
  classwork : Option ℚ := none
  homework : Option ℚ := none
  project : Option ℚ := none
  exam : Option ℚ := none
deriving DecidableEq

/-- `min(max(x, lo), hi)`. -/
def clamp (x lo hi : ℚ) : ℚ := min (max x lo) hi

/-- Lines 135-138 of `save_scores`: clamp each posted component into its
fixed range (missing / null components default to 0). -/
def applyScores (a : Assessment) (e : ScoreEntry) : Assessment :=
  { a with
    classwork_score := some (clamp (e.classwork.getD 0) 0 30),
    homework_score := some (clamp (e.homework.getD 0) 0 10),
    project_score := some (clamp (e.project.getD 0) 0 10),
    exam_score := some (clamp (e.exam.getD 0) 0 50) }

/-- Lines 135-142 of `save_scores`: the per-entry update applied to a
found-or-created assessment row. -/
def saveAssessmentUpdate (level : String) (e : ScoreEntry) (a : Assessment) : Assessment :=
  calculate_grade_for_assessment (Assessment.calculate_total (applyScores a e)) level

/-- Python's `str.upper()`, written as a structurally recursive map over
the string's characters (equivalent to `String.toUpper`, whose
position-based recursion does not reduce in the kernel). -/
def pyUpper (s : String) : String := String.mk (s.data.map Char.toUpper)

/-- Lines 108-111 of `save_scores`: derive the grading level from the
class (`none` models `class_obj` being `None`), uppercase it, and fall
back to `PRIMARY` when not one of the three known keys. -/
def save_grading_level (classLevel : Option String) : String :=
  let g := match classLevel with
    | some l => pyUpper l
    | none => "PRIMARY"
  if g = "PRIMARY" ∨ g = "JHS" ∨ g = "SHS" then g else "PRIMARY"

/-- Membership test for the per-subject cohort: one (class subject,
term) pair. -/
def cohortOf (csid tid : Nat) (a : Assessment) : Bool :=
  a.class_subject_id == csid && a.term_id == tid

/-- Write the loop-assigned position back to a queried cohort row
(a row outside the cohort, or — unreachably — without a computed
position, is left as is). -/
def applyPosition (csid tid : Nat) (posList : List (Nat × Nat)) (a : Assessment) :
    Assessment :=
  if cohortOf csid tid a then
    match posList.lookup a.id with
    | some p => { a with class_position := some p }
    | none => a
  else a

/-- `calculate_class_positions` (`routes/assessments.py` lines 175-189):
query all assessments of the (subject, term) cohort ordered by
`total_score DESC`, run the position loop, and write the positions back
to the queried rows. -/
def calculate_class_positions (csid tid : Nat) (db : List Assessment) : List Assessment :=
  let posList := rankByKeyDesc
    ((db.filter (cohortOf csid tid)).map (fun a => (a.id, a.total_score)))
  db.map (applyPosition csid tid posList)

/-- One iteration of the `for score_data in scores` loop of
`save_scores` (lines 115-144): find or create the assessment row for
(student, subject, term), then apply the clamped-score update.  The
second state component is the next fresh row id. -/
def saveOne (csid tid recorder : Nat) (level : String) (st : List Assessment × Nat)
    (e : ScoreEntry) : List Assessment × Nat :=
  let key := fun a : Assessment =>
    a.student_id == e.student_id && a.class_subject_id == csid && a.term_id == tid
  if st.1.any key then
    (updateFirst key (saveAssessmentUpdate level e) st.1, st.2)
  else
    (st.1 ++ [saveAssessmentUpdate level e
        { id := st.2, student_id := e.student_id, class_subject_id := csid,
          term_id := tid, recorded_by_id := some recorder }], st.2 + 1)

/-- `save_scores` (`routes/assessments.py` lines 91-155): upsert every
posted entry, then recompute class positions over the full (subject,
term) cohort.  `classLevel` is the owning class's `level` column. -/
def save_scores (db : List Assessment) (csid tid recorder nextId : Nat)
    (classLevel : Option String) (entries : List ScoreEntry) : List Assessment :=
  let level := save_grading_level classLevel
  let st := entries.foldl (saveOne csid tid recorder level) (db, nextId)
  calculate_class_positions csid tid st.1

/-- The request body of `/assessments/api/calculate-grade`. -/
structure GradeRequest where
  classwork : Option ℚ := none
  homework : Option ℚ := none
  project : Option ℚ := none
  exam : Option ℚ := none
  level : Option String := none
deriving DecidableEq

/-- The response of `/assessments/api/calculate-grade`. -/
structure GradeResponse where
  total : ℚ
  grade : Option String
  remark : Option String
deriving DecidableEq

/-- `api_calculate_grade` (`routes/assessments.py` lines 195-230): clamp
the four components, sum them, uppercase the posted level (defaulting
to `'PRIMARY'` when absent — note: no fallback for unknown levels), and
look up the first matching band. -/
def api_calculate_grade (req : GradeRequest) : GradeResponse :=
  let cw := clamp (req.classwork.getD 0) 0 30
  let hw := clamp (req.homework.getD 0) 0 10
  let pj := clamp (req.project.getD 0) 0 10
  let ex := clamp (req.exam.getD 0) 0 50
  let total := cw + hw + pj + ex
  let scale := NACCA_GRADING_SCALE (pyUpper (req.level.getD "PRIMARY"))
  match gradeLookup scale total with
  | some gr => { total := total, grade := some gr.1, remark := some gr.2 }
  | none => { total := total, grade := none, remark := none }

/-! ## Terminal reports (`routes/assessments.py` lines 395-529 and the
`TerminalReport`, `ClassEnrollment`, `Attendance` models) -/

/-- The `class_subjects` table row (the columns the engine reads). -/
structure ClassSubject where
  id : Nat
  class_id : Nat
deriving DecidableEq

/-- The `class_enrollments` table row (the columns the engine reads). -/
structure Enrollment where
  id : Nat
  student_id : Nat
  class_id : Nat
  academic_year_id : Nat
deriving DecidableEq

/-- The `AttendanceStatus` enum. -/
inductive AttendanceStatus where
  | present
  | absent
  | late
  | excused
deriving DecidableEq

/-- The `attendance` table row (the columns the engine reads); dates are
modelled as integers (day numbers). -/
structure AttendanceRecord where
  student_id : Nat
  class_id : Nat
  date : Int
  status : AttendanceStatus
deriving DecidableEq

/-- The `terms` table row (the columns the engine reads). -/
structure TermInfo where
  id : Nat
  start_date : Int
  end_date : Int
deriving DecidableEq

/-- The `terminal_reports` table row (the columns the engine touches;
`published_at` is modelled as an integer timestamp). -/
structure TerminalReport where
  id : Nat
  student_id : Nat
  term_id : Nat
  class_enrollment_id : Nat
  total_marks : Option ℚ := none
  average_score : Option ℚ := none
  class_position : Option Nat := none
  class_size : Option Nat := none
  total_days : Option Nat := none
  days_present : Option Nat := none
  days_absent : Option Nat := none
  is_published : Bool := false
  published_at : Option Int := none
deriving DecidableEq

/-- The query of lines 436-440: all assessments of a student for the
term that belong to subject offerings of the class. -/
def reportAssessments (assessDb : List Assessment) (css : List ClassSubject)
    (class_id sid tid : Nat) : List Assessment :=
  assessDb.filter (fun a =>
    a.student_id == sid && a.term_id == tid &&
    css.any (fun cs => cs.id == a.class_subject_id && cs.class_id == class_id))

/-- The query of lines 451-456: attendance records of the student for
the class within `[term.start_date, min(term.end_date, today)]`. -/
def attendanceWindow (attDb : List AttendanceRecord) (sid class_id : Nat)
    (term : TermInfo) (today : Int) : List AttendanceRecord :=
  attDb.filter (fun r =>
    r.student_id == sid && r.class_id == class_id &&
    decide (term.start_date ≤ r.date) && decide (r.date ≤ min term.end_date today))

/-- `sum(a.total_score or 0 for a in assessments)`. -/
def sumTotals (as' : List Assessment) : ℚ :=
  (as'.map (fun a => a.total_score.getD 0)).sum

/-- `sum(1 for a in records if a.status in [PRESENT, LATE])`. -/
def presCount (recs : List AttendanceRecord) : Nat :=
  (recs.filter (fun x =>
    x.status == AttendanceStatus.present || x.status == AttendanceStatus.late)).length

/-- `sum(1 for a in records if a.status == ABSENT)`. -/
def absCount (recs : List AttendanceRecord) : Nat :=
  (recs.filter (fun x => x.status == AttendanceStatus.absent)).length

/-- Lines 436-462 of `generate_reports`: recompute the report's score
aggregates (only when the student has at least one assessment for the
class/term) and unconditionally recompute the attendance tallies.  The
two sequential field-update blocks of the source are written as one
record update per branch; the source's
`report.average_score = report.total_marks / len(assessments)` uses the
`total_marks` just assigned, i.e. `sumTotals`. -/
def updateReportFields (assessDb : List Assessment) (css : List ClassSubject)
    (attDb : List AttendanceRecord) (class_id : Nat) (term : TermInfo) (today : Int)
    (classSize : Nat) (sid : Nat) (r : TerminalReport) : TerminalReport :=
  let as' := reportAssessments assessDb css class_id sid term.id
  let recs := attendanceWindow attDb sid class_id term today
  if as' = [] then
    { r with
      total_days := some recs.length,
      days_present := some (presCount recs),
      days_absent := some (absCount recs) }
  else
    { r with
      total_marks := some (sumTotals as'),
      average_score := some (sumTotals as' / (as'.length : ℚ)),
      class_size := some classSize,
      total_days := some recs.length,
      days_present := some (presCount recs),
      days_absent := some (absCount recs) }

/-- Row key used by the find-or-create of lines 421-433: one report per
(student, term). -/
def reportKey (sid tid : Nat) (r : TerminalReport) : Bool :=
  r.student_id == sid && r.term_id == tid

/-- One iteration of the `for enrollment in enrollments` loop of
`generate_reports` (lines 420-464): find or create the terminal report
for (student, term), then recompute its fields.  The second state
component is the next fresh row id. -/
def genStep (assessDb : List Assessment) (css : List ClassSubject)
    (attDb : List AttendanceRecord) (class_id : Nat) (term : TermInfo) (today : Int)
    (classSize : Nat) (st : List TerminalReport × Nat) (enr : Enrollment) :
    List TerminalReport × Nat :=
  let upd := updateReportFields assessDb css attDb class_id term today classSize
    enr.student_id
  let fresh : TerminalReport :=
    { id := st.2, student_id := enr.student_id, term_id := term.id,
      class_enrollment_id := enr.id }
  if st.1.any (reportKey enr.student_id term.id) then
    (updateFirst (reportKey enr.student_id term.id) upd st.1, st.2)
  else
    (st.1 ++ [upd fresh], st.2 + 1)

/-- Membership test for the terminal-report cohort of a class/term:
the report's term matches and its owning enrollment belongs to the
class (the `join(ClassEnrollment).filter(...)` of lines 479-482 and
513-516). -/
def trCohort (enrDb : List Enrollment) (class_id tid : Nat) (r : TerminalReport) : Bool :=
  r.term_id == tid &&
    enrDb.any (fun e => e.id == r.class_enrollment_id && e.class_id == class_id)

/-- Write the loop-assigned position back to a queried cohort report. -/
def applyTrPosition (enrDb : List Enrollment) (class_id tid : Nat)
    (posList : List (Nat × Nat)) (r : TerminalReport) : TerminalReport :=
  if trCohort enrDb class_id tid r then
    match posList.lookup r.id with
    | some p => { r with class_position := some p }
    | none => r
  else r

/-- `calculate_terminal_positions` (lines 475-491): query the class/term
report cohort ordered by `average_score DESC`, run the position loop,
and write the positions back. -/
def calculate_terminal_positions (class_id tid : Nat) (enrDb : List Enrollment)
    (reps : List TerminalReport) : List TerminalReport :=
  let posList := rankByKeyDesc
    ((reps.filter (trCohort enrDb class_id tid)).map (fun r => (r.id, r.average_score)))
  reps.map (applyTrPosition enrDb class_id tid posList)

/-- `generate_reports` (`routes/assessments.py` lines 395-472): for every
enrollment of the class in the academic year, find-or-create the
terminal report and recompute its fields, then recompute terminal
positions for the class/term. -/
def generate_reports (reps : List TerminalReport) (nextId : Nat)
    (enrDb : List Enrollment) (assessDb : List Assessment) (css : List ClassSubject)
    (attDb : List AttendanceRecord) (class_id year_id : Nat) (term : TermInfo)
    (today : Int) : List TerminalReport × Nat :=
  let enrs := enrDb.filter (fun e => e.class_id == class_id && e.academic_year_id == year_id)
  let st := enrs.foldl (genStep assessDb css attDb class_id term today enrs.length)
    (reps, nextId)
  (calculate_terminal_positions class_id term.id enrDb st.1, st.2)

/-- The error outcome of `publish_reports` when the class/term has no
generated reports (the source flashes a warning and redirects without
committing, i.e. without writing anything). -/
inductive PublishError where
  | invalidState
deriving DecidableEq

/-- `publish_reports` (`routes/assessments.py` lines 494-529): query the
class/term report cohort; if empty, leave the table unchanged and
report the error; otherwise set `is_published = True` and
`published_at = now` on every cohort report and commit. -/
def publish_reports (reps : List TerminalReport) (enrDb : List Enrollment)
    (class_id tid : Nat) (now : Int) : List TerminalReport × Option PublishError :=
  if reps.any (trCohort enrDb class_id tid) then
    (reps.map (fun r =>
      if trCohort enrDb class_id tid r then
        { r with is_published := true, published_at := some now }
      else r), none)
  else
    (reps, some PublishError.invalidState)

/-! ## Helper lemmas: order keys and counting -/

lemma okey_le_iff (x y : ℚ) : okey (some x) ≤ okey (some y) ↔ x ≤ y := by
  simp [okey]

lemma okey_lt_iff (x y : ℚ) : okey (some x) < okey (some y) ↔ x < y := by
  simp [okey]

lemma countGt_append (xs ys : List (Nat × Option ℚ)) (s : Option ℚ) :
    countGt (xs ++ ys) s = countGt xs s + countGt ys s := by
  simp [countGt, List.countP_append]

lemma countGt_eq_zero {xs : List (Nat × Option ℚ)} {s : Option ℚ}
    (h : ∀ p ∈ xs, okey p.2 ≤ okey s) : countGt xs s = 0 := by
  refine List.countP_eq_zero.mpr ?_
  intro p hp
  simpa using not_lt_of_le (h p hp)

lemma countGt_eq_length {xs : List (Nat × Option ℚ)} {s : Option ℚ}
    (h : ∀ p ∈ xs, okey s < okey p.2) : countGt xs s = xs.length := by
  refine List.countP_eq_length.mpr ?_
  intro p hp
  simpa using h p hp

/-- Invariant-carrying specification of the position loop on a sorted,
NULL-free suffix `ys`: `zs` is the already-consumed prefix (all scores
at least `q`), `q` the previous row's score, and `pos` its assigned
position.  Every remaining row is assigned one plus the number of
strictly greater scores in the whole cohort. -/
lemma rankPass_sorted_spec (ys : List (Nat × Option ℚ)) :
    ∀ (zs : List (Nat × Option ℚ)) (q : ℚ) (pos : Nat),
    (∀ p ∈ ys, ∃ x : ℚ, p.2 = some x ∧ x ≤ q) →
    List.Pairwise rOrd ys →
    (∀ p ∈ zs, ∃ x : ℚ, p.2 = some x ∧ q ≤ x) →
    pos = 1 + countGt zs (some q) →
    rankPass zs.length pos (some q) ys
      = ys.map (fun p => (p.1, 1 + countGt (zs ++ ys) p.2)) := by
  induction ys with
  | nil => intro zs q pos _ _ _ _; simp [rankPass]
  | cons y rest ih =>
    intro zs q pos hall hsort hzs hpos
    obtain ⟨j, s⟩ := y
    obtain ⟨x, hx2, hxq⟩ := hall (j, s) (List.mem_cons_self _ _)
    simp only at hx2
    subst hx2
    have hrest_le : ∀ p ∈ rest, okey p.2 ≤ okey (some x) := by
      intro p hp
      exact (List.pairwise_cons.mp hsort).1 p hp
    have hrest_all : ∀ p ∈ rest, ∃ y' : ℚ, p.2 = some y' ∧ y' ≤ x := by
      intro p hp
      obtain ⟨y', hy2, _⟩ := hall p (List.mem_cons_of_mem _ hp)
      refine ⟨y', hy2, ?_⟩
      have := hrest_le p hp
      rw [hy2, okey_le_iff] at this
      exact this
    have hcount_tail : countGt ((j, some x) :: rest) (some x) = 0 := by
      refine countGt_eq_zero ?_
      intro p hp
      rcases List.mem_cons.mp hp with h | h
      · subst h; exact le_refl _
      · exact hrest_le p h
    by_cases hxq' : x = q
    · -- tied with the previous row: keep its position
      subst hxq'
      have hstep : rankPass zs.length pos (some x) ((j, some x) :: rest)
          = (j, pos) :: rankPass (zs.length + 1) pos (some x) rest := by
        simp [rankPass]
      rw [hstep]
      have htail := ih (zs ++ [(j, some x)]) x pos
        hrest_all (List.Pairwise.of_cons hsort)
        (by
          intro p hp
          rcases List.mem_append.mp hp with h | h
          · exact hzs p h
          · simp at h; subst h; exact ⟨x, rfl, le_refl x⟩)
        (by
          rw [countGt_append]
          have : countGt [(j, some x)] (some x) = 0 :=
            countGt_eq_zero (by intro p hp; simp at hp; subst hp; exact le_refl _)
          rw [this, Nat.add_zero]
          exact hpos)
      have hlen : (zs ++ [(j, some x)]).length = zs.length + 1 := by simp
      rw [hlen] at htail
      rw [htail]
      have hhead : pos = 1 + countGt (zs ++ (j, some x) :: rest) (some x) := by
        rw [countGt_append, hcount_tail, Nat.add_zero]
        exact hpos
      have hlist : (zs ++ [(j, some x)]) ++ rest = zs ++ (j, some x) :: rest := by
        simp
      rw [hlist]
      simp only [List.map_cons]
      rw [← hhead]
    · -- a strictly smaller score: position jumps to the 1-based index
      have hxlt : x < q := lt_of_le_of_ne hxq hxq'
      have hstep : rankPass zs.length pos (some q) ((j, some x) :: rest)
          = (j, zs.length + 1) :: rankPass (zs.length + 1) (zs.length + 1) (some x) rest := by
        simp [rankPass]
        constructor
        · intro h; exact absurd h hxq'
        · rw [if_neg hxq']
      rw [hstep]
      have hzs_gt : ∀ p ∈ zs, okey (some x) < okey p.2 := by
        intro p hp
        obtain ⟨y', hy2, hqy⟩ := hzs p hp
        rw [hy2, okey_lt_iff]
        exact lt_of_lt_of_le hxlt hqy
      have hcount_zs : countGt zs (some x) = zs.length := countGt_eq_length hzs_gt
      have htail := ih (zs ++ [(j, some x)]) x (zs.length + 1)
        hrest_all (List.Pairwise.of_cons hsort)
        (by
          intro p hp
          rcases List.mem_append.mp hp with h | h
          · obtain ⟨y', hy2, hqy⟩ := hzs p h
            exact ⟨y', hy2, le_of_lt (lt_of_lt_of_le hxlt hqy)⟩
          · simp at h; subst h; exact ⟨x, rfl, le_refl x⟩)
        (by
          rw [countGt_append]
          have : countGt [(j, some x)] (some x) = 0 :=
            countGt_eq_zero (by intro p hp; simp at hp; subst hp; exact le_refl _)
          rw [this, hcount_zs]
          omega)
      have hlen : (zs ++ [(j, some x)]).length = zs.length + 1 := by simp
      rw [hlen] at htail
      rw [htail]
      have hhead : zs.length + 1 = 1 + countGt (zs ++ (j, some x) :: rest) (some x) := by
        rw [countGt_append, hcount_tail, hcount_zs]
        omega
      have hlist : (zs ++ [(j, some x)]) ++ rest = zs ++ (j, some x) :: rest := by
        simp
      rw [hlist]
      simp only [List.map_cons]
      rw [← hhead]

/-- On a sorted NULL-free cohort the position loop assigns every row one
plus the number of strictly greater scores. -/
lemma rankPass_top (ys : List (Nat × Option ℚ))
    (hall : ∀ p ∈ ys, p.2 ≠ none) (hsort : List.Pairwise rOrd ys) :
    rankPass 0 1 none ys = ys.map (fun p => (p.1, 1 + countGt ys p.2)) := by
  cases ys with
  | nil => simp [rankPass]
  | cons y rest =>
    obtain ⟨j, s⟩ := y
    have hs : ∃ x : ℚ, s = some x := by
      cases s with
      | none =>
        have hne := hall (j, none) (List.mem_cons_self _ _)
        simp at hne
      | some x => exact ⟨x, rfl⟩
    obtain ⟨x, rfl⟩ := hs
    have hrest_le : ∀ p ∈ rest, okey p.2 ≤ okey (some x) := by
      intro p hp
      exact (List.pairwise_cons.mp hsort).1 p hp
    have hstep : rankPass 0 1 none ((j, some x) :: rest)
        = (j, 1) :: rankPass 1 1 (some x) rest := by
      simp [rankPass]
    rw [hstep]
    have hrest_all : ∀ p ∈ rest, ∃ y' : ℚ, p.2 = some y' ∧ y' ≤ x := by
      intro p hp
      have hne := hall p (List.mem_cons_of_mem _ hp)
      cases hp2 : p.2 with
      | none => exact absurd hp2 hne
      | some y' =>
        refine ⟨y', rfl, ?_⟩
        have := hrest_le p hp
        rw [hp2, okey_le_iff] at this
        exact this
    have hcount_head : countGt ((j, some x) :: rest) (some x) = 0 := by
      refine countGt_eq_zero ?_
      intro p hp
      rcases List.mem_cons.mp hp with h | h
      · subst h; exact le_refl _
      · exact hrest_le p h
    have htail := rankPass_sorted_spec rest [(j, some x)] x 1
      hrest_all (List.Pairwise.of_cons hsort)
      (by intro p hp; simp at hp; subst hp; exact ⟨x, rfl, le_refl x⟩)
      (by
        have : countGt [(j, some x)] (some x) = 0 :=
          countGt_eq_zero (by intro p hp; simp at hp; subst hp; exact le_refl _)
        rw [this])
    simp only [List.length_singleton] at htail
    rw [htail]
    have hlist : [(j, some x)] ++ rest = (j, some x) :: rest := by simp
    rw [hlist]
    simp only [List.map_cons]
    rw [hcount_head]

/-- `rankByKeyDesc` on a NULL-free cohort: the output pairs each row id
(in sorted order) with one plus the number of strictly greater scores
in the original cohort. -/
lemma rankByKeyDesc_spec (xs : List (Nat × Option ℚ)) (hall : ∀ p ∈ xs, p.2 ≠ none) :
    rankByKeyDesc xs
      = (List.insertionSort rOrd xs).map (fun p => (p.1, 1 + countGt xs p.2)) := by
  unfold rankByKeyDesc
  have hperm := List.perm_insertionSort rOrd xs
  rw [rankPass_top _ (fun p hp => hall p (hperm.mem_iff.mp hp))
      (List.sorted_insertionSort rOrd xs)]
  refine List.map_congr_left ?_
  intro p _
  have : countGt (List.insertionSort rOrd xs) p.2 = countGt xs p.2 := by
    unfold countGt
    exact hperm.countP_eq _
  rw [this]

/-- First-match association lookup over a mapped pair list with distinct
keys. -/
lemma lookup_map_keyed {β : Type} (g : Nat × Option ℚ → β) :
    ∀ (l : List (Nat × Option ℚ)), (l.map Prod.fst).Nodup →
    ∀ {j : Nat} {s : Option ℚ}, (j, s) ∈ l →
    (l.map (fun p => (p.1, g p))).lookup j = some (g (j, s)) := by
  intro l
  induction l with
  | nil => intro _ j s hmem; simp at hmem
  | cons y tail ih =>
    intro hnd j s hmem
    obtain ⟨j0, s0⟩ := y
    simp only [List.map_cons, List.nodup_cons] at hnd
    rcases List.mem_cons.mp hmem with h | h
    · rw [Prod.mk.injEq] at h
      obtain ⟨h1, h2⟩ := h
      subst h1; subst h2
      simp [List.lookup]
    · by_cases hj : j = j0
      · subst hj
        exact absurd (List.mem_map_of_mem Prod.fst h) hnd.1
      · have : (j == j0) = false := by simpa using hj
        simp only [List.map_cons, List.lookup, this]
        exact ih hnd.2 h

/-- Rank lookup for a row of a NULL-free, distinct-id cohort: its
assigned position is one plus the number of strictly greater scores. -/
lemma rankByKeyDesc_lookup {xs : List (Nat × Option ℚ)}
    (hall : ∀ p ∈ xs, p.2 ≠ none) (hnd : (xs.map Prod.fst).Nodup)
    {j : Nat} {s : Option ℚ} (hmem : (j, s) ∈ xs) :
    (rankByKeyDesc xs).lookup j = some (1 + countGt xs s) := by
  rw [rankByKeyDesc_spec xs hall]
  have hperm := List.perm_insertionSort rOrd xs
  have hnd' : ((List.insertionSort rOrd xs).map Prod.fst).Nodup :=
    ((hperm.map Prod.fst).nodup_iff).mpr hnd
  exact lookup_map_keyed (fun p => 1 + countGt xs p.2) _ hnd'
    (hperm.mem_iff.mpr hmem)

/-- Bridge between the loop-level count and the specification's
competition rank, on NULL-free cohorts. -/
lemma countGt_eq_competitionRank (xs : List (Nat × Option ℚ))
    (hall : ∀ p ∈ xs, p.2 ≠ none) (x : ℚ) :
    1 + countGt xs (some x) = competitionRank (xs.map (fun p => p.2.getD 0)) x := by
  unfold competitionRank countGt
  congr 1
  induction xs with
  | nil => rfl
  | cons p t ih =>
    have hp := hall p (List.mem_cons_self _ _)
    have hrec := ih (fun a ha => hall a (List.mem_cons_of_mem _ ha))
    cases hp2 : p.2 with
    | none => exact absurd hp2 hp
    | some u =>
      simp only [List.countP_cons, List.map_cons, hp2]
      rw [← hrec]
      congr 1
      simp [okey_lt_iff]

/-- The position loop preserves the row ids, in order. -/
lemma rankPass_map_fst :
    ∀ (l : List (Nat × Option ℚ)) (i pos : Nat) (prev : Option ℚ),
    (rankPass i pos prev l).map Prod.fst = l.map Prod.fst := by
  intro l
  induction l with
  | nil => intro i pos prev; rfl
  | cons p t ih =>
    intro i pos prev
    obtain ⟨j, s⟩ := p
    simp [rankPass, ih]

/-- A key present among the pairs' first components is found by
`List.lookup`. -/
lemma lookup_isSome_of_mem_fst {β : Type} :
    ∀ (l : List (Nat × β)) (j : Nat), j ∈ l.map Prod.fst →
    (l.lookup j).isSome = true := by
  intro l
  induction l with
  | nil => intro j h; simp at h
  | cons p t ih =>
    intro j h
    obtain ⟨k, v⟩ := p
    by_cases hj : j = k
    · subst hj
      simp [List.lookup]
    · have hb : (j == k) = false := by simpa using hj
      have h' : j ∈ t.map Prod.fst := by
        simp only [List.map_cons, List.mem_cons] at h
        rcases h with h | h
        · exact absurd h hj
        · exact h
      simp only [List.lookup, hb]
      exact ih j h'

/-! ## Claim C1 -/

/-- Claim C1, counterexample.  The claim asserts that for every real
total in `[0, 100]` the grade lookup returns a matching band and the
"no grade" outcome is unreachable.  The configured scale has unit gaps
between consecutive bands, so a non-integer total such as 19.5 —
reachable, e.g. from an exam component of 19.5 — falls in the gap
between the PRIMARY bands `(0, 19)` and `(20, 24)` and receives no
grade: `calculate_grade_for_assessment` sets `grade = None`. -/
theorem grade_gap_counterexample :
    (0 : ℚ) ≤ 19.5 ∧ (19.5 : ℚ) ≤ 100 ∧
    (Assessment.calculate_total
      (applyScores { id := 0, student_id := 1, class_subject_id := 2, term_id := 3 }
        { student_id := 1, exam := some (19.5 : ℚ) })).total_score = some (19.5 : ℚ) ∧
    gradeLookup (NACCA_GRADING_SCALE "PRIMARY") (19.5 : ℚ) = none ∧
    (calculate_grade_for_assessment
      (Assessment.calculate_total
        (applyScores { id := 0, student_id := 1, class_subject_id := 2, term_id := 3 }
          { student_id := 1, exam := some (19.5 : ℚ) })) "PRIMARY").grade = none := by
  refine ⟨by norm_num, by norm_num, ?_, ?_, ?_⟩
  · simp [Assessment.calculate_total, applyScores, clamp]
    norm_num
  · norm_num [gradeLookup, NACCA_GRADING_SCALE, PRIMARY_SCALE, List.find?]
  · simp [calculate_grade_for_assessment, Assessment.calculate_total, applyScores, clamp,
      gradeLookup, NACCA_GRADING_SCALE, PRIMARY_SCALE, List.find?]
    norm_num

/-- Claim C1, amended: for every level in `{PRIMARY, JHS, SHS}` and
every *integer* total in `[0, 100]`, the grade lookup returns exactly
one `(code, remark)` pair whose band satisfies `lo ≤ total ≤ hi`, and
the "no grade" outcome is unreachable; for non-integer totals lying in
a unit gap between consecutive bands the lookup returns no grade (see
the counterexample). -/
theorem grade_lookup_integer_totals :
    ∀ lvl ∈ (["PRIMARY", "JHS", "SHS"] : List String), ∀ n : Nat, n < 101 →
      ∃ b ∈ NACCA_GRADING_SCALE lvl,
        gradeLookup (NACCA_GRADING_SCALE lvl) (n : ℚ) = some (b.code, b.remark) ∧
        b.lo ≤ (n : ℚ) ∧ (n : ℚ) ≤ b.hi ∧
        ∀ b' ∈ NACCA_GRADING_SCALE lvl, b'.lo ≤ (n : ℚ) → (n : ℚ) ≤ b'.hi → b' = b := by
  decide

/-- Witness for `grade_lookup_integer_totals` at level JHS and total 50. -/
theorem grade_lookup_integer_totals_witness :
    ∃ b ∈ NACCA_GRADING_SCALE "JHS",
      gradeLookup (NACCA_GRADING_SCALE "JHS") ((50 : Nat) : ℚ) = some (b.code, b.remark) ∧
      b.lo ≤ ((50 : Nat) : ℚ) ∧ ((50 : Nat) : ℚ) ≤ b.hi ∧
      ∀ b' ∈ NACCA_GRADING_SCALE "JHS",
        b'.lo ≤ ((50 : Nat) : ℚ) → ((50 : Nat) : ℚ) ≤ b'.hi → b' = b :=
  grade_lookup_integer_totals "JHS" (by decide) 50 (by decide)

/-! ## Claim C2 -/

/-- Claim C2: the rank computation implements competition ranking.  The
three cited score lists produce positions `1,1,3`, `1,2,3,4` and
`1,1,1` under `calculate_class_positions`, and in general (for a
cohort with distinct row ids and no NULL scores, quantified over the
shared loop `rankByKeyDesc` that both `calculate_class_positions` and
`calculate_terminal_positions` apply to their cohort) every row is
assigned exactly the competition rank of its score: one plus the
number of strictly greater scores. -/
theorem rank_engine_competition_ranking :
    (calculate_class_positions 7 3
      [{ id := 1, student_id := 1, class_subject_id := 7, term_id := 3, total_score := some 90 },
       { id := 2, student_id := 2, class_subject_id := 7, term_id := 3, total_score := some 90 },
       { id := 3, student_id := 3, class_subject_id := 7, term_id := 3, total_score := some 80 }]).map
      (fun a => a.class_position) = [some 1, some 1, some 3] ∧
    (calculate_class_positions 7 3
      [{ id := 1, student_id := 1, class_subject_id := 7, term_id := 3, total_score := some 100 },
       { id := 2, student_id := 2, class_subject_id := 7, term_id := 3, total_score := some 90 },
       { id := 3, student_id := 3, class_subject_id := 7, term_id := 3, total_score := some 80 },
       { id := 4, student_id := 4, class_subject_id := 7, term_id := 3, total_score := some 70 }]).map
      (fun a => a.class_position) = [some 1, some 2, some 3, some 4] ∧
    (calculate_class_positions 7 3
      [{ id := 1, student_id := 1, class_subject_id := 7, term_id := 3, total_score := some 50 },
       { id := 2, student_id := 2, class_subject_id := 7, term_id := 3, total_score := some 50 },
       { id := 3, student_id := 3, class_subject_id := 7, term_id := 3, total_score := some 50 }]).map
      (fun a => a.class_position) = [some 1, some 1, some 1] ∧
    (∀ xs : List (Nat × Option ℚ), (∀ p ∈ xs, p.2 ≠ none) → (xs.map Prod.fst).Nodup →
      ∀ j x, (j, some x) ∈ xs →
        (rankByKeyDesc xs).lookup j
          = some (competitionRank (xs.map (fun p => p.2.getD 0)) x)) := by
  refine ⟨by decide, by decide, by decide, ?_⟩
  intro xs hall hnd j x hmem
  rw [rankByKeyDesc_lookup hall hnd hmem, countGt_eq_competitionRank xs hall x]

/-- Witness for the general clause of `rank_engine_competition_ranking`
at a two-row cohort. -/
theorem rank_engine_competition_ranking_witness :
    (rankByKeyDesc [(21, some 90), (22, some 80)]).lookup 22
      = some (competitionRank ([(21, some (90 : ℚ)), (22, some 80)].map
          (fun p => p.2.getD 0)) 80) :=
  rank_engine_competition_ranking.2.2.2 [(21, some 90), (22, some 80)]
    (by decide) (by decide) 22 80 (by decide)

/-! ## Claim C4 -/

/-- Claim C4, counterexample.  The claim asserts NULL-scored rows are
excluded from ranking and do not affect the other rows' positions.  In
fact `calculate_class_positions` ranks every queried row: a NULL
total sorts first (PostgreSQL NULLS FIRST under `DESC`), receives
position 1, and shifts a scored row from position 2 to position 3;
(the 90-scored row also inherits position 1 because the loop's
`prev_score is not None` test conflates a NULL score with the initial
sentinel). -/
theorem rank_null_counterexample :
    (calculate_class_positions 4 9
      [{ id := 31, student_id := 31, class_subject_id := 4, term_id := 9, total_score := none },
       { id := 32, student_id := 32, class_subject_id := 4, term_id := 9, total_score := some 90 },
       { id := 33, student_id := 33, class_subject_id := 4, term_id := 9, total_score := some 80 }]).map
      (fun a => a.class_position) = [some 1, some 1, some 3] ∧
    (calculate_class_positions 4 9
      [{ id := 32, student_id := 32, class_subject_id := 4, term_id := 9, total_score := some 90 },
       { id := 33, student_id := 33, class_subject_id := 4, term_id := 9, total_score := some 80 }]).map
      (fun a => a.class_position) = [some 1, some 2] := by
  constructor
  · decide
  · decide

/-- Claim C4, amended: NULL-scored rows are *included* in the ranking.
Every row of the (subject, term) cohort — whether or not its
`total_score` is NULL — is assigned a position by
`calculate_class_positions`, and a NULL-scored row sorts ahead of all
scored rows and thereby shifts their positions (see the
counterexample). -/
theorem rank_assigns_position_to_every_cohort_row
    (csid tid : Nat) (db : List Assessment) :
    ∀ a' ∈ calculate_class_positions csid tid db,
      cohortOf csid tid a' = true → (a'.class_position).isSome = true := by
  intro a' ha' hcoh
  unfold calculate_class_positions at ha'
  obtain ⟨a, ha, rfl⟩ := List.mem_map.mp ha'
  unfold applyPosition at hcoh ⊢
  by_cases hc : cohortOf csid tid a = true
  · simp only [hc, if_true]
    have hpair : (a.id, a.total_score) ∈
        (db.filter (cohortOf csid tid)).map (fun b => (b.id, b.total_score)) :=
      List.mem_map_of_mem _ (List.mem_filter.mpr ⟨ha, hc⟩)
    have hid : a.id ∈ ((db.filter (cohortOf csid tid)).map
        (fun b => (b.id, b.total_score))).map Prod.fst := by
      refine List.mem_map.mpr ⟨(a.id, a.total_score), hpair, rfl⟩
    have hid2 : a.id ∈ (rankByKeyDesc ((db.filter (cohortOf csid tid)).map
        (fun b => (b.id, b.total_score)))).map Prod.fst := by
      unfold rankByKeyDesc
      rw [rankPass_map_fst]
      have hperm := (List.perm_insertionSort rOrd
        ((db.filter (cohortOf csid tid)).map (fun b => (b.id, b.total_score)))).map Prod.fst
      exact hperm.mem_iff.mpr hid
    have hsome := lookup_isSome_of_mem_fst _ a.id hid2
    obtain ⟨p, hp⟩ := Option.isSome_iff_exists.mp hsome
    simp only [hp]
    rfl
  · rw [if_neg hc]
    simp only [if_neg hc] at hcoh
    exact absurd hcoh hc

/-- Witness for `rank_assigns_position_to_every_cohort_row`: a
NULL-scored row of a concrete cohort is assigned a position. -/
theorem rank_assigns_position_witness :
    ({ id := 41, student_id := 41, class_subject_id := 6, term_id := 2, total_score := none,
       class_position := some 1 : Assessment}.class_position).isSome = true :=
  rank_assigns_position_to_every_cohort_row 6 2
    [{ id := 41, student_id := 41, class_subject_id := 6, term_id := 2, total_score := none },
     { id := 42, student_id := 42, class_subject_id := 6, term_id := 2, total_score := some 55 }]
    { id := 41, student_id := 41, class_subject_id := 6, term_id := 2, total_score := none,
      class_position := some 1 } (by decide) (by decide)

/-! ## Claim C5 -/

/-- Claim C5, counterexample.  The claim asserts every grading entry
point falls back to `PRIMARY` for unknown levels.  The batch save path
does, but the `/api/calculate-grade` endpoint only uppercases: posting
`level = "BASIC"` with an exam score of 50 yields grading against the
empty scale and a `None` grade, whereas the PRIMARY scale would grade a
total of 50 as `("4", "High Average")`. -/
theorem api_level_fallback_counterexample :
    (api_calculate_grade { exam := some 50, level := some "BASIC" }).grade = none ∧
    (api_calculate_grade { exam := some 50, level := some "BASIC" }).total = 50 ∧
    NACCA_GRADING_SCALE (pyUpper "BASIC") = [] ∧
    gradeLookup (NACCA_GRADING_SCALE "PRIMARY") 50 = some ("4", "High Average") := by
  have hup : pyUpper "BASIC" = "BASIC" := by decide
  have hscale : NACCA_GRADING_SCALE (pyUpper "BASIC") = [] := by
    rw [hup]
    decide
  refine ⟨?_, ?_, hscale, ?_⟩
  · simp [api_calculate_grade, hscale, gradeLookup]
  · simp [api_calculate_grade, hscale, gradeLookup, clamp]
  · decide

/-- Claim C5, amended: the batch score-save path
(`save_grading_level`) uppercases the class level and falls back to
`PRIMARY` for any value outside `{PRIMARY, JHS, SHS}`, so that path
never grades against an empty scale; but the `/api/calculate-grade`
endpoint only uppercases the posted level, and for any level whose
uppercasing is not one of the three known keys it grades against the
empty scale and returns a `None` grade and remark. -/
theorem level_normalization :
    (∀ clvl : Option String,
      save_grading_level clvl = "PRIMARY" ∨ save_grading_level clvl = "JHS" ∨
      save_grading_level clvl = "SHS") ∧
    (∀ req : GradeRequest,
      pyUpper (req.level.getD "PRIMARY") ≠ "PRIMARY" →
      pyUpper (req.level.getD "PRIMARY") ≠ "JHS" →
      pyUpper (req.level.getD "PRIMARY") ≠ "SHS" →
      (api_calculate_grade req).grade = none ∧ (api_calculate_grade req).remark = none) := by
  constructor
  · intro clvl
    unfold save_grading_level
    by_cases h : (match clvl with
        | some l => pyUpper l
        | none => "PRIMARY") = "PRIMARY" ∨ (match clvl with
        | some l => pyUpper l
        | none => "PRIMARY") = "JHS" ∨ (match clvl with
        | some l => pyUpper l
        | none => "PRIMARY") = "SHS"
    · simp only [if_pos h]
      exact h
    · simp [h]
  · intro req h1 h2 h3
    have hscale : NACCA_GRADING_SCALE (pyUpper (req.level.getD "PRIMARY")) = [] := by
      unfold NACCA_GRADING_SCALE
      rw [if_neg h1, if_neg h2, if_neg h3]
    constructor
    · simp [api_calculate_grade, hscale, gradeLookup]
    · simp [api_calculate_grade, hscale, gradeLookup]

/-- Witness for `level_normalization`: the save path normalizes the
level string `"kg 1"`, and the API endpoint returns no grade for the
unknown level `"KG"`. -/
theorem level_normalization_witness :
    (save_grading_level (some "kg 1") = "PRIMARY" ∨
     save_grading_level (some "kg 1") = "JHS" ∨
     save_grading_level (some "kg 1") = "SHS") ∧
    ((api_calculate_grade { level := some "KG" }).grade = none ∧
     (api_calculate_grade { level := some "KG" }).remark = none) :=
  ⟨level_normalization.1 (some "kg 1"),
   level_normalization.2 { level := some "KG" } (by decide) (by decide) (by decide)⟩

/-! ## Claim C7 -/

/-- Claim C7: publishing a class/term with zero generated terminal
reports fails — the handler flashes a warning and redirects without
committing, modelled as the `invalidState` error — and the terminal
report table is returned unchanged: no `is_published` or
`published_at` field is written. -/
theorem publish_empty_cohort_fails
    (reps : List TerminalReport) (enrDb : List Enrollment) (class_id tid : Nat) (now : Int)
    (h : reps.any (trCohort enrDb class_id tid) = false) :
    publish_reports reps enrDb class_id tid now = (reps, some PublishError.invalidState) := by
  unfold publish_reports
  rw [if_neg]
  simp [h]

/-- Witness for `publish_empty_cohort_fails` on a table whose only
report belongs to a different term. -/
theorem publish_empty_cohort_fails_witness :
    publish_reports
      [{ id := 61, student_id := 61, term_id := 8, class_enrollment_id := 71 }]
      [⟨71, 61, 12, 1⟩] 12 9 1000
    = ([{ id := 61, student_id := 61, term_id := 8, class_enrollment_id := 71 }],
       some PublishError.invalidState) :=
  publish_empty_cohort_fails _ _ 12 9 1000 (by decide)

/-! ## Claim C8 -/

/-- The cohort membership of a terminal report is unchanged by setting
its publication flags. -/
lemma trCohort_flag (enrDb : List Enrollment) (class_id tid : Nat) (now : Int)
    (r : TerminalReport) :
    trCohort enrDb class_id tid
      (if trCohort enrDb class_id tid r then
        { r with is_published := true, published_at := some now } else r)
    = trCohort enrDb class_id tid r := by
  by_cases h : trCohort enrDb class_id tid r = true
  · rw [if_pos h]
    simp [trCohort]
  · rw [if_neg h]

/-- Claim C8: when the class/term cohort is non-empty, `publish_reports`
succeeds; every cohort report gets `is_published = true` and
`published_at = now` with all other fields unchanged, every
out-of-cohort report is untouched, and re-publishing succeeds again and
merely refreshes the timestamp on the cohort. -/
theorem publish_publishes_cohort
    (reps : List TerminalReport) (enrDb : List Enrollment) (class_id tid : Nat) (now : Int)
    (h : reps.any (trCohort enrDb class_id tid) = true) :
    ∃ out, publish_reports reps enrDb class_id tid now = (out, none) ∧
      List.Forall₂ (fun r r' =>
        (trCohort enrDb class_id tid r = true →
          r' = { r with is_published := true, published_at := some now }) ∧
        (trCohort enrDb class_id tid r = false → r' = r)) reps out ∧
      (∀ now2 : Int, ∃ out2,
        publish_reports out enrDb class_id tid now2 = (out2, none) ∧
        List.Forall₂ (fun r r' =>
          (trCohort enrDb class_id tid r = true →
            r' = { r with is_published := true, published_at := some now2 }) ∧
          (trCohort enrDb class_id tid r = false → r' = r)) out out2 ∧
        ∀ r' ∈ out2, trCohort enrDb class_id tid r' = true →
          r'.is_published = true ∧ r'.published_at = some now2) := by
  have hmap : ∀ (l : List TerminalReport) (t : Int),
      List.Forall₂ (fun r r' =>
        (trCohort enrDb class_id tid r = true →
          r' = { r with is_published := true, published_at := some t }) ∧
        (trCohort enrDb class_id tid r = false → r' = r)) l
      (l.map (fun r => if trCohort enrDb class_id tid r then
        { r with is_published := true, published_at := some t } else r)) := by
    intro l t
    rw [List.forall₂_map_right_iff]
    rw [List.forall₂_same]
    intro r _
    constructor
    · intro hc
      rw [if_pos hc]
    · intro hc
      rw [if_neg (by simp [hc])]
  have hany : ∀ (l : List TerminalReport) (t : Int),
      l.any (trCohort enrDb class_id tid) = true →
      (l.map (fun r => if trCohort enrDb class_id tid r then
        { r with is_published := true, published_at := some t } else r)).any
        (trCohort enrDb class_id tid) = true := by
    intro l t hl
    obtain ⟨r, hr, hcr⟩ := List.any_eq_true.mp hl
    refine List.any_eq_true.mpr ⟨_, List.mem_map_of_mem _ hr, ?_⟩
    rw [trCohort_flag]
    exact hcr
  refine ⟨_, ?_, hmap reps now, ?_⟩
  · unfold publish_reports
    rw [if_pos h]
  · intro now2
    refine ⟨_, ?_, hmap _ now2, ?_⟩
    · unfold publish_reports
      rw [if_pos (hany reps now h)]
    · intro r' hr' hcr'
      obtain ⟨r0, hr0, rfl⟩ := List.mem_map.mp hr'
      rw [trCohort_flag] at hcr'
      rw [if_pos hcr']
      exact ⟨rfl, rfl⟩

/-- Witness for `publish_publishes_cohort` on a one-report cohort. -/
theorem publish_publishes_cohort_witness :
    ∃ out, publish_reports
        [{ id := 81, student_id := 81, term_id := 4, class_enrollment_id := 91 }]
        [⟨91, 81, 14, 1⟩] 14 4 500 = (out, none) ∧
      List.Forall₂ (fun r r' =>
        (trCohort [⟨91, 81, 14, 1⟩] 14 4 r = true →
          r' = { r with is_published := true, published_at := some 500 }) ∧
        (trCohort [⟨91, 81, 14, 1⟩] 14 4 r = false → r' = r))
        [{ id := 81, student_id := 81, term_id := 4, class_enrollment_id := 91 }] out ∧
      (∀ now2 : Int, ∃ out2,
        publish_reports out [⟨91, 81, 14, 1⟩] 14 4 now2 = (out2, none) ∧
        List.Forall₂ (fun r r' =>
          (trCohort [⟨91, 81, 14, 1⟩] 14 4 r = true →
            r' = { r with is_published := true, published_at := some now2 }) ∧
          (trCohort [⟨91, 81, 14, 1⟩] 14 4 r = false → r' = r)) out out2 ∧
        ∀ r' ∈ out2, trCohort [⟨91, 81, 14, 1⟩] 14 4 r' = true →
          r'.is_published = true ∧ r'.published_at = some now2) :=
  publish_publishes_cohort
    [{ id := 81, student_id := 81, term_id := 4, class_enrollment_id := 91 }]
    [⟨91, 81, 14, 1⟩] 14 4 500 (by decide)

/-! ## Claim C10 -/

/-- Claim C10: in report generation, a student with zero assessments
for the class/term keeps the previous values of the score aggregates
(`total_marks`, `average_score`, `class_size`) of an existing terminal
report, while the attendance tallies (`total_days`, `days_present`,
`days_absent`) are recomputed and overwritten unconditionally for every
student. -/
theorem generate_keeps_stale_aggregates_recomputes_attendance
    (assessDb : List Assessment) (css : List ClassSubject) (attDb : List AttendanceRecord)
    (class_id : Nat) (term : TermInfo) (today : Int) (classSize sid : Nat)
    (r : TerminalReport)
    (h : reportAssessments assessDb css class_id sid term.id = []) :
    ((updateReportFields assessDb css attDb class_id term today classSize sid r).total_marks
        = r.total_marks ∧
      (updateReportFields assessDb css attDb class_id term today classSize sid r).average_score
        = r.average_score ∧
      (updateReportFields assessDb css attDb class_id term today classSize sid r).class_size
        = r.class_size) ∧
    (∀ (sid2 : Nat) (r2 : TerminalReport),
      (updateReportFields assessDb css attDb class_id term today classSize sid2 r2).total_days
        = some (attendanceWindow attDb sid2 class_id term today).length ∧
      (updateReportFields assessDb css attDb class_id term today classSize sid2 r2).days_present
        = some (presCount (attendanceWindow attDb sid2 class_id term today)) ∧
      (updateReportFields assessDb css attDb class_id term today classSize sid2 r2).days_absent
        = some (absCount (attendanceWindow attDb sid2 class_id term today))) := by
  constructor
  · unfold updateReportFields
    rw [if_pos h]
    exact ⟨rfl, rfl, rfl⟩
  · intro sid2 r2
    unfold updateReportFields
    by_cases h2 : reportAssessments assessDb css class_id sid2 term.id = []
    · rw [if_pos h2]
      exact ⟨rfl, rfl, rfl⟩
    · rw [if_neg h2]
      exact ⟨rfl, rfl, rfl⟩

/-- Concrete stale report used by the C10 witness. -/
def staleReport : TerminalReport :=
  { id := 95, student_id := 77, term_id := 5, class_enrollment_id := 96,
    total_marks := some 88, average_score := some 44, class_size := some 9 }

/-- Witness for `generate_keeps_stale_aggregates_recomputes_attendance`
on an empty assessment table and a report with stale aggregates. -/
theorem generate_keeps_stale_aggregates_witness :
    ((updateReportFields [] [] [] 15 ⟨5, 10, 20⟩ 18 3 77 staleReport).total_marks
        = staleReport.total_marks ∧
      (updateReportFields [] [] [] 15 ⟨5, 10, 20⟩ 18 3 77 staleReport).average_score
        = staleReport.average_score ∧
      (updateReportFields [] [] [] 15 ⟨5, 10, 20⟩ 18 3 77 staleReport).class_size
        = staleReport.class_size) ∧
    (∀ (sid2 : Nat) (r2 : TerminalReport),
      (updateReportFields [] [] [] 15 ⟨5, 10, 20⟩ 18 3 sid2 r2).total_days
        = some (attendanceWindow [] sid2 15 ⟨5, 10, 20⟩ 18).length ∧
      (updateReportFields [] [] [] 15 ⟨5, 10, 20⟩ 18 3 sid2 r2).days_present
        = some (presCount (attendanceWindow [] sid2 15 ⟨5, 10, 20⟩ 18)) ∧
      (updateReportFields [] [] [] 15 ⟨5, 10, 20⟩ 18 3 sid2 r2).days_absent
        = some (absCount (attendanceWindow [] sid2 15 ⟨5, 10, 20⟩ 18))) :=
  generate_keeps_stale_aggregates_recomputes_attendance [] [] [] 15 ⟨5, 10, 20⟩ 18 3 77
    staleReport (by decide)

/-! ## Claim C3 -/

/-- Specification predicate: row `a'` agrees with row `a` on every
column except possibly `class_position` (used to describe rows the
batch did not write; the rank pass may still have touched their
position). -/
def onlyPositionChanged (a a' : Assessment) : Prop :=
  a' = { a with class_position := a'.class_position }

/-- Specification predicate: row `a'` stores exactly the clamped
components of entry `e` (missing components defaulting to 0), each
within its fixed range, and its total is the sum of the stored
components. -/
def clampedWrite (e : ScoreEntry) (a' : Assessment) : Prop :=
  a'.classwork_score = some (clamp (e.classwork.getD 0) 0 30) ∧
  a'.homework_score = some (clamp (e.homework.getD 0) 0 10) ∧
  a'.project_score = some (clamp (e.project.getD 0) 0 10) ∧
  a'.exam_score = some (clamp (e.exam.getD 0) 0 50) ∧
  a'.total_score = some (a'.classwork_score.getD 0 + a'.homework_score.getD 0 +
    a'.project_score.getD 0 + a'.exam_score.getD 0) ∧
  0 ≤ a'.classwork_score.getD 0 ∧ a'.classwork_score.getD 0 ≤ 30 ∧
  0 ≤ a'.homework_score.getD 0 ∧ a'.homework_score.getD 0 ≤ 10 ∧
  0 ≤ a'.project_score.getD 0 ∧ a'.project_score.getD 0 ≤ 10 ∧
  0 ≤ a'.exam_score.getD 0 ∧ a'.exam_score.getD 0 ≤ 50

lemma clamp_nonneg (x hi : ℚ) (h : 0 ≤ hi) : 0 ≤ clamp x 0 hi :=
  le_min (le_max_right x 0) h

lemma clamp_le (x hi : ℚ) : clamp x 0 hi ≤ hi := min_le_right _ _

/-- The per-entry write of `save_scores` stores clamped, in-range
components whose sum is the stored total. -/
lemma saveAssessmentUpdate_clamped (lvl : String) (e : ScoreEntry) (a : Assessment) :
    clampedWrite e (saveAssessmentUpdate lvl e a) := by
  have hfields :
      (saveAssessmentUpdate lvl e a).classwork_score = some (clamp (e.classwork.getD 0) 0 30) ∧
      (saveAssessmentUpdate lvl e a).homework_score = some (clamp (e.homework.getD 0) 0 10) ∧
      (saveAssessmentUpdate lvl e a).project_score = some (clamp (e.project.getD 0) 0 10) ∧
      (saveAssessmentUpdate lvl e a).exam_score = some (clamp (e.exam.getD 0) 0 50) ∧
      (saveAssessmentUpdate lvl e a).total_score
        = some (clamp (e.classwork.getD 0) 0 30 + clamp (e.homework.getD 0) 0 10 +
            clamp (e.project.getD 0) 0 10 + clamp (e.exam.getD 0) 0 50) := by
    unfold saveAssessmentUpdate calculate_grade_for_assessment
    simp only [Assessment.calculate_total, applyScores]
    cases h : gradeLookup (NACCA_GRADING_SCALE lvl)
        (clamp (e.classwork.getD 0) 0 30 + clamp (e.homework.getD 0) 0 10 +
         clamp (e.project.getD 0) 0 10 + clamp (e.exam.getD 0) 0 50) with
    | none => simp [h]
    | some gr => simp [h]
  obtain ⟨h1, h2, h3, h4, h5⟩ := hfields
  refine ⟨h1, h2, h3, h4, ?_, ?_, ?_, ?_, ?_, ?_, ?_, ?_, ?_⟩
  · rw [h1, h2, h3, h4, h5]
    simp
  · rw [h1]; exact clamp_nonneg _ _ (by norm_num)
  · rw [h1]; exact clamp_le _ _
  · rw [h2]; exact clamp_nonneg _ _ (by norm_num)
  · rw [h2]; exact clamp_le _ _
  · rw [h3]; exact clamp_nonneg _ _ (by norm_num)
  · rw [h3]; exact clamp_le _ _
  · rw [h4]; exact clamp_nonneg _ _ (by norm_num)
  · rw [h4]; exact clamp_le _ _

/-- Rows of `updateFirst p f l` are rows of `l` or the image under `f`
of a row of `l`. -/
lemma mem_updateFirst {α : Type} (p : α → Bool) (f : α → α) :
    ∀ (l : List α) (y : α), y ∈ updateFirst p f l → y ∈ l ∨ ∃ x ∈ l, y = f x := by
  intro l
  induction l with
  | nil => intro y hy; simp [updateFirst] at hy
  | cons a rest ih =>
    intro y hy
    unfold updateFirst at hy
    by_cases hp : p a = true
    · rw [if_pos hp] at hy
      rcases List.mem_cons.mp hy with h | h
      · exact Or.inr ⟨a, List.mem_cons_self _ _, h⟩
      · exact Or.inl (List.mem_cons_of_mem _ h)
    · rw [if_neg hp] at hy
      rcases List.mem_cons.mp hy with h | h
      · exact Or.inl (h ▸ List.mem_cons_self _ _)
      · rcases ih y h with h' | ⟨x, hx, hyx⟩
        · exact Or.inl (List.mem_cons_of_mem _ h')
        · exact Or.inr ⟨x, List.mem_cons_of_mem _ hx, hyx⟩

/-- Rows after one `saveOne` step are previous rows or per-entry
writes. -/
lemma mem_saveOne (csid tid rec : Nat) (lvl : String) (st : List Assessment × Nat)
    (e : ScoreEntry) :
    ∀ y ∈ (saveOne csid tid rec lvl st e).1,
      y ∈ st.1 ∨ ∃ a, y = saveAssessmentUpdate lvl e a := by
  intro y hy
  unfold saveOne at hy
  by_cases ha : st.1.any (fun a : Assessment =>
      a.student_id == e.student_id && a.class_subject_id == csid && a.term_id == tid) = true
  · rw [if_pos ha] at hy
    rcases mem_updateFirst _ _ _ y hy with h | ⟨x, _, hyx⟩
    · exact Or.inl h
    · exact Or.inr ⟨x, hyx⟩
  · rw [if_neg ha] at hy
    rcases List.mem_append.mp hy with h | h
    · exact Or.inl h
    · rcases List.mem_singleton.mp h with rfl
      exact Or.inr ⟨_, rfl⟩

/-- Rows after the whole batch fold are original rows or per-entry
writes of some submitted entry. -/
lemma mem_foldl_saveOne (csid tid rec : Nat) (lvl : String) :
    ∀ (es : List ScoreEntry) (st : List Assessment × Nat) (y : Assessment),
      y ∈ (es.foldl (saveOne csid tid rec lvl) st).1 →
      y ∈ st.1 ∨ ∃ e ∈ es, ∃ a, y = saveAssessmentUpdate lvl e a := by
  intro es
  induction es with
  | nil => intro st y hy; exact Or.inl hy
  | cons e rest ih =>
    intro st y hy
    rcases ih (saveOne csid tid rec lvl st e) y hy with h | ⟨e', he', a, hya⟩
    · rcases mem_saveOne csid tid rec lvl st e y h with h' | ⟨a, hya⟩
      · exact Or.inl h'
      · exact Or.inr ⟨e, List.mem_cons_self _ _, a, hya⟩
    · exact Or.inr ⟨e', List.mem_cons_of_mem _ he', a, hya⟩

/-- The rank pass only rewrites `class_position`: every output row is
an input row with at most its position changed. -/
lemma mem_calculate_class_positions (csid tid : Nat) (db : List Assessment) :
    ∀ a' ∈ calculate_class_positions csid tid db, ∃ a ∈ db, onlyPositionChanged a a' := by
  intro a' ha'
  unfold calculate_class_positions at ha'
  obtain ⟨a, ha, rfl⟩ := List.mem_map.mp ha'
  refine ⟨a, ha, ?_⟩
  unfold onlyPositionChanged applyPosition
  by_cases hc : cohortOf csid tid a = true
  · simp only [hc, if_true]
    cases hl : (rankByKeyDesc ((db.filter (cohortOf csid tid)).map
        (fun b => (b.id, b.total_score)))).lookup a.id with
    | none => rfl
    | some p => rfl
  · simp only [hc]
    rfl

/-- Claim C3: after any batch score save, every stored row either was
not written by the batch (it agrees with a pre-existing row on every
column except possibly `class_position`) or was written from some
submitted entry: its four components are the entry's values clamped
into the fixed ranges 0-30 / 0-10 / 0-10 / 0-50 (missing components
defaulting to 0, out-of-range values silently clamped, never
rejected), and its stored `total_score` equals the sum of the four
stored components. -/
theorem save_scores_clamps_and_totals
    (db : List Assessment) (csid tid rec nid : Nat) (clvl : Option String)
    (entries : List ScoreEntry) :
    List.Forall (fun a' =>
      (∃ a ∈ db, onlyPositionChanged a a') ∨ ∃ e ∈ entries, clampedWrite e a')
      (save_scores db csid tid rec nid clvl entries) := by
  rw [List.forall_iff_forall_mem]
  intro a' ha'
  unfold save_scores at ha'
  obtain ⟨b, hb, hpos⟩ := mem_calculate_class_positions _ _ _ a' ha'
  rcases mem_foldl_saveOne csid tid rec (save_grading_level clvl) entries (db, nid) b hb
    with hdb | ⟨e, he, a, rfl⟩
  · exact Or.inl ⟨b, hdb, hpos⟩
  · refine Or.inr ⟨e, he, ?_⟩
    have hcw := saveAssessmentUpdate_clamped (save_grading_level clvl) e a
    unfold onlyPositionChanged at hpos
    rw [hpos]
    unfold clampedWrite at hcw ⊢
    simpa using hcw

/-! ## Claim C9 -/

/-- The per-entry write leaves the row's identifying columns (id,
student, subject offering, term) unchanged. -/
lemma saveAssessmentUpdate_keys (lvl : String) (e : ScoreEntry) (a : Assessment) :
    (saveAssessmentUpdate lvl e a).id = a.id ∧
    (saveAssessmentUpdate lvl e a).student_id = a.student_id ∧
    (saveAssessmentUpdate lvl e a).class_subject_id = a.class_subject_id ∧
    (saveAssessmentUpdate lvl e a).term_id = a.term_id := by
  unfold saveAssessmentUpdate calculate_grade_for_assessment
  simp only [Assessment.calculate_total, applyScores]
  cases h : gradeLookup (NACCA_GRADING_SCALE lvl)
      (clamp (e.classwork.getD 0) 0 30 + clamp (e.homework.getD 0) 0 10 +
       clamp (e.project.getD 0) 0 10 + clamp (e.exam.getD 0) 0 50) with
  | none => simp [h]
  | some gr => simp [h]

/-- The per-entry write always stores a non-NULL total. -/
lemma saveAssessmentUpdate_total_ne_none (lvl : String) (e : ScoreEntry) (a : Assessment) :
    (saveAssessmentUpdate lvl e a).total_score ≠ none := by
  have h := (saveAssessmentUpdate_clamped lvl e a).2.2.2.2.1
  rw [h]
  simp

/-- `updateFirst` leaves any projection invariant under `f` unchanged,
row by row. -/
lemma updateFirst_map_of_preserve {α β : Type} (p : α → Bool) (f : α → α) (g : α → β)
    (hg : ∀ x, g (f x) = g x) :
    ∀ l : List α, (updateFirst p f l).map g = l.map g := by
  intro l
  induction l with
  | nil => rfl
  | cons a rest ih =>
    unfold updateFirst
    by_cases hp : p a = true
    · rw [if_pos hp]
      simp [hg a]
    · rw [if_neg hp]
      simp [ih]

/-- Invariants of the batch fold: row ids stay distinct and below the
fresh-id counter, and every cohort row keeps a non-NULL total. -/
lemma foldl_saveOne_inv (csid tid rec : Nat) (lvl : String) :
    ∀ (es : List ScoreEntry) (st : List Assessment × Nat),
      (st.1.map (fun a => a.id)).Nodup →
      (∀ a ∈ st.1, a.id < st.2) →
      (∀ a ∈ st.1, cohortOf csid tid a = true → a.total_score ≠ none) →
      ((es.foldl (saveOne csid tid rec lvl) st).1.map (fun a => a.id)).Nodup ∧
      (∀ a ∈ (es.foldl (saveOne csid tid rec lvl) st).1,
        a.id < (es.foldl (saveOne csid tid rec lvl) st).2) ∧
      (∀ a ∈ (es.foldl (saveOne csid tid rec lvl) st).1,
        cohortOf csid tid a = true → a.total_score ≠ none) := by
  intro es
  induction es with
  | nil => intro st h1 h2 h3; exact ⟨h1, h2, h3⟩
  | cons e rest ih =>
    intro st h1 h2 h3
    have hstep :
        ((saveOne csid tid rec lvl st e).1.map (fun a => a.id)).Nodup ∧
        (∀ a ∈ (saveOne csid tid rec lvl st e).1, a.id < (saveOne csid tid rec lvl st e).2) ∧
        (∀ a ∈ (saveOne csid tid rec lvl st e).1,
          cohortOf csid tid a = true → a.total_score ≠ none) := by
      unfold saveOne
      by_cases ha : st.1.any (fun a : Assessment =>
          a.student_id == e.student_id && a.class_subject_id == csid && a.term_id == tid)
          = true
      · rw [if_pos ha]
        refine ⟨?_, ?_, ?_⟩
        · rw [updateFirst_map_of_preserve _ _ _
            (fun x => (saveAssessmentUpdate_keys lvl e x).1)]
          exact h1
        · intro a hA
          rcases mem_updateFirst _ _ _ a hA with h | ⟨x, hx, rfl⟩
          · exact h2 a h
          · rw [(saveAssessmentUpdate_keys lvl e x).1]
            exact h2 x hx
        · intro a hA hc
          rcases mem_updateFirst _ _ _ a hA with h | ⟨x, _, rfl⟩
          · exact h3 a h hc
          · exact saveAssessmentUpdate_total_ne_none lvl e x
      · rw [if_neg ha]
        refine ⟨?_, ?_, ?_⟩
        · rw [List.map_append]
          simp only [List.map_cons, List.map_nil]
          rw [List.nodup_append]
          refine ⟨h1, List.nodup_singleton _, ?_⟩
          intro i hi hj
          simp only [List.mem_singleton] at hj
          obtain ⟨x, hx, rfl⟩ := List.mem_map.mp hi
          rw [(saveAssessmentUpdate_keys lvl e _).1] at hj
          exact absurd hj (Nat.ne_of_lt (h2 x hx))
        · intro a hA
          rcases List.mem_append.mp hA with h | h
          · exact Nat.lt_trans (h2 a h) (Nat.lt_succ_self _)
          · rcases List.mem_singleton.mp h with rfl
            rw [(saveAssessmentUpdate_keys lvl e _).1]
            exact Nat.lt_succ_self _
        · intro a hA hc
          rcases List.mem_append.mp hA with h | h
          · exact h3 a h hc
          · rcases List.mem_singleton.mp h with rfl
            exact saveAssessmentUpdate_total_ne_none lvl e _
    exact ih (saveOne csid tid rec lvl st e) hstep.1 hstep.2.1 hstep.2.2

/-- Writing back a position changes neither cohort membership nor the
stored total. -/
lemma applyPosition_fields (csid tid : Nat) (posList : List (Nat × Nat)) (a : Assessment) :
    cohortOf csid tid (applyPosition csid tid posList a) = cohortOf csid tid a ∧
    (applyPosition csid tid posList a).total_score = a.total_score := by
  unfold applyPosition
  by_cases hc : cohortOf csid tid a = true
  · rw [if_pos hc]
    cases hl : posList.lookup a.id with
    | none => exact ⟨rfl, rfl⟩
    | some p => exact ⟨rfl, rfl⟩
  · rw [if_neg hc]
    exact ⟨rfl, rfl⟩

/-- Filtering and projecting through a row map that preserves the
filter and the projection. -/
lemma map_filter_eq {α β : Type} (g : α → α) (q : α → Bool) (f : α → β)
    (hq : ∀ a, q (g a) = q a) (hf : ∀ a, f (g a) = f a) :
    ∀ l : List α, ((l.map g).filter q).map f = (l.filter q).map f := by
  intro l
  induction l with
  | nil => rfl
  | cons a t ih =>
    simp only [List.map_cons, List.filter_cons, hq a]
    by_cases h : q a = true
    · simp only [h, if_true, List.map_cons, ih, hf a]
    · rw [if_neg h, if_neg h]
      exact ih

/-- Claim C9: after a batch score save for a (subject offering, term),
the rank recomputation runs over the complete current cohort —
including rows not touched by the submitted batch — and every cohort
row's `class_position` equals the competition rank of its
`total_score` within the full stored cohort.  The hypotheses say the
table's row ids are distinct and below the fresh-id counter, and that
pre-existing cohort rows have non-NULL totals (every row the batch
itself writes gets a total). -/
theorem save_scores_reranks_full_cohort
    (db : List Assessment) (csid tid rec nid : Nat) (clvl : Option String)
    (entries : List ScoreEntry)
    (hid : (db.map (fun a => a.id)).Nodup)
    (hbound : ∀ a ∈ db, a.id < nid)
    (htot : ∀ a ∈ db, cohortOf csid tid a = true → a.total_score ≠ none) :
    List.Forall (fun a' => cohortOf csid tid a' = true →
      ∃ t : ℚ, a'.total_score = some t ∧
        a'.class_position = some (competitionRank
          (((save_scores db csid tid rec nid clvl entries).filter
            (cohortOf csid tid)).map (fun b => b.total_score.getD 0)) t))
      (save_scores db csid tid rec nid clvl entries) := by
  rw [List.forall_iff_forall_mem]
  obtain ⟨hid1, hbound1, htot1⟩ := foldl_saveOne_inv csid tid rec (save_grading_level clvl)
    entries (db, nid) hid hbound htot
  intro a' ha' hcoh
  have hss : save_scores db csid tid rec nid clvl entries
      = calculate_class_positions csid tid
        (entries.foldl (saveOne csid tid rec (save_grading_level clvl)) (db, nid)).1 := rfl
  rw [hss] at ha' ⊢
  set db1 := (entries.foldl (saveOne csid tid rec (save_grading_level clvl)) (db, nid)).1
    with hdb1def
  set pairs := (db1.filter (cohortOf csid tid)).map (fun b => (b.id, b.total_score))
    with hpairsdef
  have hpairs_all : ∀ p ∈ pairs, p.2 ≠ none := by
    intro p hp
    obtain ⟨b, hb, rfl⟩ := List.mem_map.mp hp
    exact htot1 b (List.mem_filter.mp hb).1 (List.mem_filter.mp hb).2
  have hpairs_nd : (pairs.map Prod.fst).Nodup := by
    rw [hpairsdef, List.map_map]
    have hsub : ((db1.filter (cohortOf csid tid)).map (fun a => a.id)).Sublist
        (db1.map (fun a => a.id)) := (List.filter_sublist db1).map _
    exact hid1.sublist hsub
  unfold calculate_class_positions at ha'
  obtain ⟨a, ha, rfl⟩ := List.mem_map.mp ha'
  have hca : cohortOf csid tid a = true := by
    rw [(applyPosition_fields csid tid _ a).1] at hcoh
    exact hcoh
  obtain ⟨t, ht⟩ : ∃ t, a.total_score = some t := by
    cases h : a.total_score with
    | none => exact absurd h (htot1 a ha hca)
    | some t => exact ⟨t, rfl⟩
  have hmempair : (a.id, some t) ∈ pairs := by
    rw [← ht]
    exact List.mem_map_of_mem _ (List.mem_filter.mpr ⟨ha, hca⟩)
  have hlook := rankByKeyDesc_lookup hpairs_all hpairs_nd hmempair
  have happ : applyPosition csid tid (rankByKeyDesc pairs) a
      = { a with class_position := some (1 + countGt pairs (some t)) } := by
    unfold applyPosition
    rw [if_pos hca, hlook]
  have houtmap : ((calculate_class_positions csid tid db1).filter (cohortOf csid tid)).map
      (fun b => b.total_score.getD 0)
      = (db1.filter (cohortOf csid tid)).map (fun b => b.total_score.getD 0) := by
    unfold calculate_class_positions
    exact map_filter_eq _ _ _ (fun a2 => (applyPosition_fields csid tid _ a2).1)
      (fun a2 => by rw [(applyPosition_fields csid tid _ a2).2]) db1
  refine ⟨t, ?_, ?_⟩
  · rw [happ]
    exact ht
  · rw [happ]
    show some (1 + countGt pairs (some t)) = _
    rw [houtmap, countGt_eq_competitionRank pairs hpairs_all t]
    congr 2
    rw [hpairsdef, List.map_map]
    rfl

/-- Witness for `save_scores_reranks_full_cohort`: one pre-existing row
(student 5, total 40, untouched by the batch) and one submitted entry
(student 2, exam 50). -/
theorem save_scores_reranks_full_cohort_witness :
    List.Forall (fun a' => cohortOf 7 3 a' = true →
      ∃ t : ℚ, a'.total_score = some t ∧
        a'.class_position = some (competitionRank
          (((save_scores
              [{ id := 0, student_id := 5, class_subject_id := 7, term_id := 3,
                 total_score := some 40 }] 7 3 99 1 (some "Primary")
              [{ student_id := 2, exam := some 50 }]).filter
            (cohortOf 7 3)).map (fun b => b.total_score.getD 0)) t))
      (save_scores
        [{ id := 0, student_id := 5, class_subject_id := 7, term_id := 3,
           total_score := some 40 }] 7 3 99 1 (some "Primary")
        [{ student_id := 2, exam := some 50 }]) :=
  save_scores_reranks_full_cohort
    [{ id := 0, student_id := 5, class_subject_id := 7, term_id := 3,
       total_score := some 40 }] 7 3 99 1 (some "Primary")
    [{ student_id := 2, exam := some 50 }]
    (by decide) (by decide) (by decide)

/-! ## Claim C6 -/

section GenerateIdempotent

variable (assessDb : List Assessment) (css : List ClassSubject)
  (attDb : List AttendanceRecord) (class_id : Nat) (term : TermInfo) (today : Int)
  (classSize : Nat)

/-- Applying the per-student field recomputation twice (with unchanged
assessment and attendance data) is the same as applying it once. -/
lemma updateReportFields_stable (sid : Nat) (r : TerminalReport) :
    updateReportFields assessDb css attDb class_id term today classSize sid
      (updateReportFields assessDb css attDb class_id term today classSize sid r)
    = updateReportFields assessDb css attDb class_id term today classSize sid r := by
  by_cases h : reportAssessments assessDb css class_id sid term.id = [] <;>
    simp [updateReportFields, h]

/-- The field recomputation commutes with overwriting
`class_position` (which it never reads or writes). -/
lemma updateReportFields_position (sid : Nat) (r : TerminalReport) (p : Option Nat) :
    updateReportFields assessDb css attDb class_id term today classSize sid
      { r with class_position := p }
    = { updateReportFields assessDb css attDb class_id term today classSize sid r with
        class_position := p } := by
  by_cases h : reportAssessments assessDb css class_id sid term.id = [] <;>
    simp [updateReportFields, h]

/-- The field recomputation preserves the report's identifying
columns. -/
lemma updateReportFields_keys (sid : Nat) (r : TerminalReport) :
    (updateReportFields assessDb css attDb class_id term today classSize sid r).id = r.id ∧
    (updateReportFields assessDb css attDb class_id term today classSize sid r).student_id
      = r.student_id ∧
    (updateReportFields assessDb css attDb class_id term today classSize sid r).term_id
      = r.term_id := by
  by_cases h : reportAssessments assessDb css class_id sid term.id = [] <;>
    simp [updateReportFields, h]

/-- The field recomputation preserves the report-table key predicate. -/
lemma reportKey_updateReportFields (sid sid2 : Nat) (r : TerminalReport) :
    reportKey sid2 term.id
      (updateReportFields assessDb css attDb class_id term today classSize sid r)
    = reportKey sid2 term.id r := by
  obtain ⟨_, h2, h3⟩ := updateReportFields_keys assessDb css attDb class_id term today
    classSize sid r
  unfold reportKey
  rw [h2, h3]

end GenerateIdempotent

/-- A successful `any` yields a successful `find?`. -/
lemma find?_of_any {α : Type} (p : α → Bool) :
    ∀ l : List α, l.any p = true → ∃ r, l.find? p = some r := by
  intro l
  induction l with
  | nil => intro h; simp at h
  | cons a t ih =>
    intro h
    cases hp : p a with
    | true => exact ⟨a, by simp [List.find?_cons, hp]⟩
    | false =>
      have ht : t.any p = true := by
        simpa [List.any_cons, hp] using h
      obtain ⟨r, hr⟩ := ih ht
      exact ⟨r, by simp [List.find?_cons, hp, hr]⟩

/-- A failed `any` yields a failed `find?`. -/
lemma find?_of_not_any {α : Type} (p : α → Bool) :
    ∀ l : List α, l.any p = false → l.find? p = none := by
  intro l
  induction l with
  | nil => intro _; rfl
  | cons a t ih =>
    intro h
    rw [List.any_cons] at h
    cases hp : p a with
    | true => rw [hp] at h; simp at h
    | false =>
      rw [hp] at h
      simp only [Bool.false_or] at h
      simp [List.find?_cons, hp, ih h]

/-- A successful `find?` yields a successful `any`. -/
lemma any_of_find? {α : Type} (p : α → Bool) :
    ∀ (l : List α) (r : α), l.find? p = some r → l.any p = true := by
  intro l
  induction l with
  | nil => intro r h; simp at h
  | cons a t ih =>
    intro r h
    cases hp : p a with
    | true => simp [List.any_cons, hp]
    | false =>
      rw [List.find?_cons, hp] at h
      simp [List.any_cons, hp, ih r h]

/-- Replacing the first match by a fixed point of `f` is the identity. -/
lemma updateFirst_eq_self {α : Type} (p : α → Bool) (f : α → α) :
    ∀ (l : List α) (r : α), l.find? p = some r → f r = r → updateFirst p f l = l := by
  intro l
  induction l with
  | nil => intro r h; simp at h
  | cons a t ih =>
    intro r h hfix
    cases hp : p a with
    | true =>
      rw [List.find?_cons, hp] at h
      have : r = a := by simpa using h.symm
      subst this
      unfold updateFirst
      rw [if_pos hp, hfix]
    | false =>
      rw [List.find?_cons, hp] at h
      unfold updateFirst
      rw [if_neg (by simp [hp])]
      rw [ih r h hfix]

/-- `find?` through a map whose function preserves the predicate. -/
lemma find?_map_pred {α : Type} (g : α → α) (p : α → Bool) (hp : ∀ x, p (g x) = p x) :
    ∀ l : List α, (l.map g).find? p = (l.find? p).map g := by
  intro l
  induction l with
  | nil => rfl
  | cons a t ih =>
    cases h : p a with
    | true => simp [List.find?_cons, hp a, h]
    | false => simp [List.find?_cons, hp a, h, ih]

/-- `find?` after replacing the first match of an incompatible
predicate (by a function preserving this predicate) is unchanged. -/
lemma find?_updateFirst_other {α : Type} (p q : α → Bool) (f : α → α)
    (hqf : ∀ x, q (f x) = q x) (hpq : ∀ x, p x = true → q x = false) :
    ∀ l : List α, (updateFirst p f l).find? q = l.find? q := by
  intro l
  induction l with
  | nil => rfl
  | cons a t ih =>
    unfold updateFirst
    cases hp : p a with
    | true =>
      rw [if_pos rfl]
      have hqa : q a = false := hpq a hp
      have hqfa : q (f a) = false := by rw [hqf a, hqa]
      simp [List.find?_cons, hqa, hqfa]
    | false =>
      rw [if_neg (by simp)]
      cases hq : q a with
      | true => simp [List.find?_cons, hq]
      | false => simp [List.find?_cons, hq, ih]

/-- `find?` after replacing the first match (by a predicate-preserving
function) returns the image of the old first match. -/
lemma find?_updateFirst_self {α : Type} (p : α → Bool) (f : α → α)
    (hpf : ∀ x, p (f x) = p x) :
    ∀ (l : List α) (r : α), l.find? p = some r →
      (updateFirst p f l).find? p = some (f r) := by
  intro l
  induction l with
  | nil => intro r h; simp at h
  | cons a t ih =>
    intro r h
    unfold updateFirst
    cases hp : p a with
    | true =>
      rw [List.find?_cons, hp] at h
      have : r = a := by simpa using h.symm
      subst this
      rw [if_pos rfl]
      have : p (f r) = true := by rw [hpf r]; exact hp
      simp [List.find?_cons, this]
    | false =>
      rw [List.find?_cons, hp] at h
      rw [if_neg (by simp [hp])]
      simp [List.find?_cons, hp, ih r h]

/-- A successful `find?` persists through appending. -/
lemma find?_append_left {α : Type} (p : α → Bool) :
    ∀ (l l' : List α) (r : α), l.find? p = some r → (l ++ l').find? p = some r := by
  intro l
  induction l with
  | nil => intro l' r h; simp at h
  | cons a t ih =>
    intro l' r h
    cases hp : p a with
    | true =>
      rw [List.find?_cons, hp] at h
      simp only [List.cons_append, List.find?_cons, hp]
      exact h
    | false =>
      rw [List.find?_cons, hp] at h
      simp only [List.cons_append, List.find?_cons, hp]
      exact ih l' r h

/-- A failed `find?` on the left of an append defers to the right. -/
lemma find?_append_none {α : Type} (p : α → Bool) :
    ∀ (l l' : List α), l.find? p = none → (l ++ l').find? p = l'.find? p := by
  intro l
  induction l with
  | nil => intro l' _; rfl
  | cons a t ih =>
    intro l' h
    cases hp : p a with
    | true => rw [List.find?_cons, hp] at h; simp at h
    | false =>
      rw [List.find?_cons, hp] at h
      simp only [List.cons_append, List.find?_cons, hp]
      exact ih l' h

/-- Two report keys with different students never match the same
report. -/
lemma reportKey_disjoint (tid sid sid2 : Nat) (hne : sid ≠ sid2) (x : TerminalReport)
    (hx : reportKey sid2 tid x = true) : reportKey sid tid x = false := by
  simp only [reportKey, Bool.and_eq_true, beq_iff_eq] at hx
  cases hb : (x.student_id == sid) with
  | false => simp [reportKey, hb]
  | true =>
    exfalso
    have h2 : x.student_id = sid := by simpa using hb
    have h1 : x.student_id = sid2 := hx.1
    exact hne (by omega)

section GenerateIdempotent2

variable (assessDb : List Assessment) (css : List ClassSubject)
  (attDb : List AttendanceRecord) (class_id : Nat) (term : TermInfo) (today : Int)
  (classSize : Nat)

/-- Proof-side predicate: the table's first report for (student `sid`,
the term) exists and is a fixed point of the per-student field
recomputation (so re-generating rewrites it to itself). -/
def reportStable (sid : Nat) (l : List TerminalReport) : Prop :=
  ∃ r, l.find? (reportKey sid term.id) = some r ∧
    updateReportFields assessDb css attDb class_id term today classSize sid r = r

/-- After processing an enrollment, its student's report exists and is
stable. -/
lemma genStep_establishes (st : List TerminalReport × Nat) (e : Enrollment) :
    reportStable assessDb css attDb class_id term today classSize e.student_id
      (genStep assessDb css attDb class_id term today classSize st e).1 := by
  unfold reportStable genStep
  by_cases ha : st.1.any (reportKey e.student_id term.id) = true
  · rw [if_pos ha]
    obtain ⟨r, hr⟩ := find?_of_any _ st.1 ha
    refine ⟨updateReportFields assessDb css attDb class_id term today classSize
      e.student_id r, ?_, updateReportFields_stable _ _ _ _ _ _ _ _ _⟩
    exact find?_updateFirst_self _ _
      (fun x => reportKey_updateReportFields assessDb css attDb class_id term today
        classSize e.student_id e.student_id x) st.1 r hr
  · rw [if_neg ha]
    have hnone : st.1.find? (reportKey e.student_id term.id) = none :=
      find?_of_not_any _ st.1 (by
        cases h : st.1.any (reportKey e.student_id term.id) with
        | true => exact absurd h ha
        | false => rfl)
    set fresh : TerminalReport :=
      { id := st.2, student_id := e.student_id, term_id := term.id,
        class_enrollment_id := e.id } with hfresh
    refine ⟨updateReportFields assessDb css attDb class_id term today classSize
      e.student_id fresh, ?_, updateReportFields_stable _ _ _ _ _ _ _ _ _⟩
    rw [find?_append_none _ st.1 _ hnone]
    have hkey : reportKey e.student_id term.id
        (updateReportFields assessDb css attDb class_id term today classSize
          e.student_id fresh) = true := by
      rw [reportKey_updateReportFields]
      simp [reportKey, hfresh]
    simp [List.find?_cons, hkey]

/-- Processing any enrollment preserves the stability of every
student's report. -/
lemma genStep_preserves (sid : Nat) (st : List TerminalReport × Nat) (e : Enrollment)
    (h : reportStable assessDb css attDb class_id term today classSize sid st.1) :
    reportStable assessDb css attDb class_id term today classSize sid
      (genStep assessDb css attDb class_id term today classSize st e).1 := by
  by_cases hs : e.student_id = sid
  · subst hs
    exact genStep_establishes assessDb css attDb class_id term today classSize st e
  · obtain ⟨r, hfind, hstab⟩ := h
    unfold reportStable genStep
    by_cases ha : st.1.any (reportKey e.student_id term.id) = true
    · rw [if_pos ha]
      refine ⟨r, ?_, hstab⟩
      rw [find?_updateFirst_other (reportKey e.student_id term.id)
        (reportKey sid term.id) _
        (fun x => reportKey_updateReportFields assessDb css attDb class_id term today
          classSize e.student_id sid x)
        (fun x hx => reportKey_disjoint term.id sid e.student_id
          (fun hss => hs hss.symm) x hx) st.1]
      exact hfind
    · rw [if_neg ha]
      exact ⟨r, find?_append_left _ st.1 _ r hfind, hstab⟩

/-- The whole generation fold preserves report stability. -/
lemma foldl_genStep_preserves (sid : Nat) :
    ∀ (es : List Enrollment) (st : List TerminalReport × Nat),
      reportStable assessDb css attDb class_id term today classSize sid st.1 →
      reportStable assessDb css attDb class_id term today classSize sid
        (es.foldl (genStep assessDb css attDb class_id term today classSize) st).1 := by
  intro es
  induction es with
  | nil => intro st h; exact h
  | cons e rest ih =>
    intro st h
    exact ih _ (genStep_preserves assessDb css attDb class_id term today classSize
      sid st e h)

/-- After the generation fold, every processed enrollment's student
has a stable report. -/
lemma foldl_genStep_establishes :
    ∀ (es : List Enrollment) (st : List TerminalReport × Nat) (e : Enrollment),
      e ∈ es →
      reportStable assessDb css attDb class_id term today classSize e.student_id
        (es.foldl (genStep assessDb css attDb class_id term today classSize) st).1 := by
  intro es
  induction es with
  | nil => intro st e he; simp at he
  | cons e0 rest ih =>
    intro st e he
    rcases List.mem_cons.mp he with rfl | he'
    · exact foldl_genStep_preserves assessDb css attDb class_id term today classSize
        e.student_id rest _
        (genStep_establishes assessDb css attDb class_id term today classSize st e)
    · exact ih _ e he'

/-- A fold over enrollments whose students all have stable reports is
the identity. -/
lemma foldl_genStep_id :
    ∀ (es : List Enrollment) (st : List TerminalReport × Nat),
      (∀ e ∈ es, reportStable assessDb css attDb class_id term today classSize
        e.student_id st.1) →
      es.foldl (genStep assessDb css attDb class_id term today classSize) st = st := by
  intro es
  induction es with
  | nil => intro st _; rfl
  | cons e rest ih =>
    intro st h
    obtain ⟨r, hfind, hstab⟩ := h e (List.mem_cons_self _ _)
    have hstep : genStep assessDb css attDb class_id term today classSize st e = st := by
      unfold genStep
      rw [if_pos (any_of_find? _ st.1 r hfind)]
      rw [updateFirst_eq_self _ _ st.1 r hfind hstab]
    rw [List.foldl_cons, hstep]
    exact ih st (fun e' he' => h e' (List.mem_cons_of_mem _ he'))

end GenerateIdempotent2

/-- Writing back a terminal position changes neither the report's keys
nor its average score nor its cohort membership. -/
lemma applyTrPosition_fields (enrDb : List Enrollment) (class_id tid : Nat)
    (posList : List (Nat × Nat)) (r : TerminalReport) :
    (applyTrPosition enrDb class_id tid posList r).student_id = r.student_id ∧
    (applyTrPosition enrDb class_id tid posList r).term_id = r.term_id ∧
    (applyTrPosition enrDb class_id tid posList r).id = r.id ∧
    (applyTrPosition enrDb class_id tid posList r).average_score = r.average_score ∧
    trCohort enrDb class_id tid (applyTrPosition enrDb class_id tid posList r)
      = trCohort enrDb class_id tid r := by
  unfold applyTrPosition
  by_cases hc : trCohort enrDb class_id tid r = true
  · rw [if_pos hc]
    cases hl : posList.lookup r.id with
    | none => exact ⟨rfl, rfl, rfl, rfl, rfl⟩
    | some p =>
      refine ⟨rfl, rfl, rfl, rfl, ?_⟩
      simp [trCohort]
  · rw [if_neg hc]
    exact ⟨rfl, rfl, rfl, rfl, rfl⟩

/-- Writing back a terminal position is either the identity or only an
overwrite of `class_position`. -/
lemma applyTrPosition_cases (enrDb : List Enrollment) (class_id tid : Nat)
    (posList : List (Nat × Nat)) (r : TerminalReport) :
    applyTrPosition enrDb class_id tid posList r = r ∨
    ∃ p : Nat, applyTrPosition enrDb class_id tid posList r
      = { r with class_position := some p } := by
  unfold applyTrPosition
  by_cases hc : trCohort enrDb class_id tid r = true
  · rw [if_pos hc]
    cases hl : posList.lookup r.id with
    | none => exact Or.inl rfl
    | some p => exact Or.inr ⟨p, rfl⟩
  · rw [if_neg hc]
    exact Or.inl rfl

/-- Writing back a terminal position twice (against the same position
list) is the same as writing it once. -/
lemma applyTrPosition_idem (enrDb : List Enrollment) (class_id tid : Nat)
    (posList : List (Nat × Nat)) (r : TerminalReport) :
    applyTrPosition enrDb class_id tid posList
      (applyTrPosition enrDb class_id tid posList r)
    = applyTrPosition enrDb class_id tid posList r := by
  by_cases hc : trCohort enrDb class_id tid r = true
  · cases hl : posList.lookup r.id with
    | none =>
      have h1 : applyTrPosition enrDb class_id tid posList r = r := by
        unfold applyTrPosition
        rw [if_pos hc, hl]
      simp only [h1]
    | some p =>
      have h1 : applyTrPosition enrDb class_id tid posList r
          = { r with class_position := some p } := by
        unfold applyTrPosition
        rw [if_pos hc, hl]
      have hc2 : trCohort enrDb class_id tid
          ({ r with class_position := some p } : TerminalReport) = true := by
        simp only [trCohort] at hc ⊢
        exact hc
      have h2 : applyTrPosition enrDb class_id tid posList
          ({ r with class_position := some p } : TerminalReport)
          = { r with class_position := some p } := by
        unfold applyTrPosition
        rw [if_pos hc2]
        have : ({ r with class_position := some p } : TerminalReport).id = r.id := rfl
        rw [this, hl]
      rw [h1, h2]
  · have h1 : applyTrPosition enrDb class_id tid posList r = r := by
      unfold applyTrPosition
      rw [if_neg hc]
    simp only [h1]

/-- The terminal-position pass preserves report stability. -/
lemma reportStable_positions (assessDb : List Assessment) (css : List ClassSubject)
    (attDb : List AttendanceRecord) (class_id : Nat) (term : TermInfo) (today : Int)
    (classSize : Nat) (enrDb : List Enrollment) (sid : Nat) (l : List TerminalReport)
    (h : reportStable assessDb css attDb class_id term today classSize sid l) :
    reportStable assessDb css attDb class_id term today classSize sid
      (calculate_terminal_positions class_id term.id enrDb l) := by
  obtain ⟨r, hfind, hstab⟩ := h
  unfold reportStable calculate_terminal_positions
  set posList := rankByKeyDesc ((l.filter (trCohort enrDb class_id term.id)).map
    (fun r => (r.id, r.average_score))) with hposList
  refine ⟨applyTrPosition enrDb class_id term.id posList r, ?_, ?_⟩
  · rw [find?_map_pred _ _ (fun x => ?_) l, hfind]
    · rfl
    · obtain ⟨h1, h2, _, _, _⟩ := applyTrPosition_fields enrDb class_id term.id posList x
      unfold reportKey
      rw [h1, h2]
  · rcases applyTrPosition_cases enrDb class_id term.id posList r with h1 | ⟨p, h1⟩
    · rw [h1]
      exact hstab
    · rw [h1, updateReportFields_position, hstab]

/-- The terminal-position pass is idempotent. -/
lemma calculate_terminal_positions_idem (class_id tid : Nat) (enrDb : List Enrollment)
    (l : List TerminalReport) :
    calculate_terminal_positions class_id tid enrDb
      (calculate_terminal_positions class_id tid enrDb l)
    = calculate_terminal_positions class_id tid enrDb l := by
  unfold calculate_terminal_positions
  set posList := rankByKeyDesc ((l.filter (trCohort enrDb class_id tid)).map
    (fun r => (r.id, r.average_score))) with hposList
  have hsame : (((l.map (applyTrPosition enrDb class_id tid posList)).filter
      (trCohort enrDb class_id tid)).map (fun r => (r.id, r.average_score)))
      = ((l.filter (trCohort enrDb class_id tid)).map (fun r => (r.id, r.average_score))) := by
    refine map_filter_eq _ _ _ (fun a => ?_) (fun a => ?_) l
    · exact (applyTrPosition_fields enrDb class_id tid posList a).2.2.2.2
    · obtain ⟨_, _, h3, h4, _⟩ := applyTrPosition_fields enrDb class_id tid posList a
      rw [h3, h4]
  rw [hsame, List.map_map]
  apply List.map_congr_left
  intro r _
  exact applyTrPosition_idem enrDb class_id tid posList r

/-- Claim C6: generating terminal reports is idempotent.  Running
`generate_reports` twice for the same class and term with no
intervening assessment, enrollment or attendance changes produces the
same report table and fresh-id counter as running it once: no
duplicate report rows are created (the operation finds-or-creates
keyed by student and term) and no field value drifts between the two
runs. -/
theorem generate_reports_idempotent
    (reps : List TerminalReport) (nextId : Nat) (enrDb : List Enrollment)
    (assessDb : List Assessment) (css : List ClassSubject) (attDb : List AttendanceRecord)
    (class_id year_id : Nat) (term : TermInfo) (today : Int) :
    generate_reports
      (generate_reports reps nextId enrDb assessDb css attDb class_id year_id term today).1
      (generate_reports reps nextId enrDb assessDb css attDb class_id year_id term today).2
      enrDb assessDb css attDb class_id year_id term today
    = generate_reports reps nextId enrDb assessDb css attDb class_id year_id term today := by
  set enrs := enrDb.filter
    (fun e => e.class_id == class_id && e.academic_year_id == year_id) with henrs
  have hgen : ∀ (R : List TerminalReport) (n : Nat),
      generate_reports R n enrDb assessDb css attDb class_id year_id term today
      = (calculate_terminal_positions class_id term.id enrDb
          (enrs.foldl (genStep assessDb css attDb class_id term today enrs.length) (R, n)).1,
         (enrs.foldl (genStep assessDb css attDb class_id term today enrs.length) (R, n)).2) := by
    intro R n
    rfl
  set F := enrs.foldl (genStep assessDb css attDb class_id term today enrs.length)
    (reps, nextId) with hF
  have hR1 : (generate_reports reps nextId enrDb assessDb css attDb class_id year_id
      term today).1 = calculate_terminal_positions class_id term.id enrDb F.1 := by
    rw [hgen]
  have hn1 : (generate_reports reps nextId enrDb assessDb css attDb class_id year_id
      term today).2 = F.2 := by
    rw [hgen]
  rw [hR1, hn1, hgen]
  have hstab : ∀ e ∈ enrs,
      reportStable assessDb css attDb class_id term today enrs.length e.student_id
        (calculate_terminal_positions class_id term.id enrDb F.1) := by
    intro e he
    exact reportStable_positions assessDb css attDb class_id term today enrs.length
      enrDb e.student_id F.1
      (foldl_genStep_establishes assessDb css attDb class_id term today enrs.length
        enrs (reps, nextId) e he)
  have hfold2 : enrs.foldl (genStep assessDb css attDb class_id term today enrs.length)
      (calculate_terminal_positions class_id term.id enrDb F.1, F.2)
      = (calculate_terminal_positions class_id term.id enrDb F.1, F.2) :=
    foldl_genStep_id assessDb css attDb class_id term today enrs.length enrs _
      (fun e he => hstab e he)
  rw [hfold2, hgen reps nextId]
  exact congrArg (fun l => (l, F.2))
    (calculate_terminal_positions_idem class_id term.id enrDb F.1)
